import Mathlib

/-!
# gopass: the bounded password-reading loop and its terminal backend

A shallow embedding of `pass.go` and `terminal_windows.go`.

* Bytes are natural numbers (a Go `byte` is a value below 256); nothing in the
  loop does arithmetic on them, so no wrap-around is involved.
* A Go `error` is `Option GoError`, `none` being `nil`.
* The byte source `getch` is a stream: `getch n` is what the call number `n`
  (counted from 0) returns, as the Go pair `(byte, error)`.  The loop calls
  `getch` exactly once per iteration, so the call number is the loop counter.
* Everything the call does to the outside world is recorded, in order, in a
  trace of events: entering raw mode, each `getch` call, each write to standard
  output and the deferred restore.
-/

namespace Gopass

/-! ## Errors and echo modes (`pass.go`) -/

/-- Go error values: the two package-level errors of `pass.go`, `io.EOF`, and
any other error of the operating system or of a replaced byte source. -/
inductive GoError
  | ErrInterrupted
  | ErrMaxLengthExceeded
  | EOF
  | other (code : Nat)
  deriving DecidableEq, Repr

/-- The three constants of type `echoMode`, the only values `getPasswd` is
called with. -/
inductive echoMode
  | echoModeNone
  | echoModeMask
  | echoModeEcho
  deriving DecidableEq, Repr

/-- The package variable `maxLength`. -/
def maxLength : Nat := 512

/-! ## Terminal backend (`terminal_windows.go`) -/

/-- The struct `terminalState`: `state` is the pointer to the native console
state (`none` is the nil pointer, the number stands for the saved console
mode), `sttyState` the saved stty settings. -/
structure terminalState where
  state : Option Nat
  sttyState : String
  deriving DecidableEq, Repr

/-- The operating-system primitives the backend calls, as oracles:
`terminal.IsTerminal`, `terminal.MakeRaw`, `terminal.Restore`,
`syscall.GetCurrentProcess`, `syscall.DuplicateHandle` (each of the two
reduced to its error result) and the run of the `stty` subprocess with the
given arguments (`exec.Command("stty", args...).Output()`: standard output and
error).  Each primitive answers the same way every time it is asked during one
call of `getPasswd`. -/
structure Console where
  IsTerminal : Bool
  MakeRaw : Except GoError Nat
  Restore : Nat → Option GoError
  GetCurrentProcess : Option GoError
  DuplicateHandle : Option GoError
  Output : List String → String × Option GoError

/-- The function `stty`: the two handle steps, each returning `(nil, err)` on
failure, then the subprocess. -/
def stty (os : Console) (args : List String) : String × Option GoError :=
  match os.GetCurrentProcess with
  | some err => ("", some err)
  | none =>
    match os.DuplicateHandle with
    | some err => ("", some err)
    | none => os.Output args

/-- The function `isPOSIXTerminal`: `stty` without arguments succeeded. -/
def isPOSIXTerminal (os : Console) : Bool :=
  (stty os []).2.isNone

/-- The function `isTerminal`. -/
def isTerminal (os : Console) : Bool :=
  os.IsTerminal || isPOSIXTerminal os

/-- White space as `unicode.IsSpace` defines it. -/
def isSpace (c : Char) : Bool :=
  let n := c.toNat
  (9 ≤ n && n ≤ 13) || n == 32 || n == 0x85 || n == 0xA0 || n == 0x1680 ||
  (0x2000 ≤ n && n ≤ 0x200a) || n == 0x2028 || n == 0x2029 || n == 0x202f ||
  n == 0x205f || n == 0x3000

/-- The library function `strings.TrimSpace`: leading and trailing white space
removed. -/
def TrimSpace (s : String) : String :=
  String.mk ((s.toList.dropWhile isSpace).reverse.dropWhile isSpace).reverse

/-- The slice `rawFlags` of `makeRaw`. -/
def rawFlags : List String :=
  ["-ignbrk", "-brkint", "-parmrk", "-istrip", "-inlcr", "-igncr", "-icrnl", "-ixon",
   "-opost",
   "-echo", "-echonl", "-icanon", "-isig", "-iexten",
   "-parenb",
   "cs8"]

/-- The function `makeRaw`.  Every return statement of the Go function gives
either a nil handle with a non-nil error or a handle with a nil error, which
is the `Except` here.  The second component lists the argument lists of the
`stty` calls made, in order. -/
def makeRaw (os : Console) : Except GoError terminalState × List (List String) :=
  if os.IsTerminal then
    match os.MakeRaw with
    | .error err => (.error err, [])
    | .ok state => (.ok { state := some state, sttyState := "" }, [])
  else
    match stty os ["--save"] with
    | (_, some err) => (.error err, [["--save"]])
    | (stateBytes, none) =>
      let state := TrimSpace stateBytes
      match stty os rawFlags with
      | (_, some err) => (.error err, [["--save"], rawFlags])
      | (_, none) => (.ok { state := none, sttyState := state }, [["--save"], rawFlags])

/-- The function `restore`, with the argument lists of its `stty` calls. -/
def restore (os : Console) (oldState : terminalState) : Option GoError × List (List String) :=
  match oldState.state with
  | some state => (os.Restore state, [])
  | none => ((stty os [oldState.sttyState]).2, [[oldState.sttyState]])

/-! ## The input loop (`pass.go`) -/

/-- What one call of `getPasswd` does to the outside world. -/
inductive Event
  | makeRaw
  | restore (oldState : terminalState)
  | getch
  | write (bytes : List Nat)
  deriving DecidableEq, Repr

/-- The local variables of `getPasswd` that the loop changes, and the trace so
far. -/
structure LoopState where
  pass : List Nat
  err : Option GoError
  counter : Nat
  trace : List Event
  deriving DecidableEq, Repr

/-- The local `bs`: the erase sequence, set for the two echoing modes only. -/
def bs (mode : echoMode) : List Nat :=
  if mode = .echoModeMask ∨ mode = .echoModeEcho then [8, 32, 8] else []

/-- The local `mask`: the glyph `*`, set for the mask mode only. -/
def mask (mode : echoMode) : List Nat :=
  if mode = .echoModeMask then [42] else []

/-- The conversion `string(v)` of a byte: Go converts an integer to the UTF-8
encoding of the code point, so a byte below 128 gives itself and a byte from
128 to 255 gives two bytes. -/
def byteString (v : Nat) : List Nat :=
  if v < 128 then [v] else [192 + v / 64, 128 + v % 64]

/-- The body of the `for` loop on the result `r` of its `getch` call; the
boolean tells whether the body left the loop through `break`. -/
def loopBody (mode : echoMode) (r : Nat × Option GoError) (s : LoopState) : LoopState × Bool :=
  let s := { s with trace := s.trace ++ [Event.getch] }
  match r.2 with
  | some e => ({ s with err := some e }, true)
  | none =>
    let v := r.1
    if v = 127 ∨ v = 8 then
      if s.pass.length > 0 then
        ({ s with pass := s.pass.take (s.pass.length - 1),
                  trace := s.trace ++ [Event.write (bs mode)] }, false)
      else (s, false)
    else if v = 13 ∨ v = 10 then (s, true)
    else if v = 3 then ({ s with err := some GoError.ErrInterrupted }, true)
    else if v ≠ 0 then
      let s := { s with pass := s.pass ++ [v] }
      if mode = .echoModeMask then
        ({ s with trace := s.trace ++ [Event.write (mask mode)] }, false)
      else if mode = .echoModeEcho then
        ({ s with trace := s.trace ++ [Event.write (byteString v)] }, false)
      else (s, false)
    else (s, false)

/-- The loop `for counter = 0; counter <= maxLength; counter++`, entered with
`counter` already set.  The first argument only bounds the recursion:
`forLoop_fuel` shows that `maxLength + 1` of it is never used up. -/
def forLoop (mode : echoMode) (getch : Nat → Nat × Option GoError) : Nat → LoopState → LoopState
  | 0, s => s
  | fuel + 1, s =>
    if s.counter ≤ maxLength then
      match loopBody mode (getch s.counter) s with
      | (s1, true) => s1
      | (s1, false) => forLoop mode getch fuel { s1 with counter := s1.counter + 1 }
    else s

/-- The loop of `getPasswd` from `counter = 0` and the check
`if counter > maxLength` after it, started with the trace `trace`. -/
def readLoop (mode : echoMode) (getch : Nat → Nat × Option GoError) (trace : List Event) :
    LoopState :=
  let s := forLoop mode getch (maxLength + 1)
    { pass := [], err := none, counter := 0, trace := trace }
  if s.counter > maxLength then { s with err := some GoError.ErrMaxLengthExceeded } else s

/-- What `getPasswd` returns, and the trace of the call. -/
structure Result where
  pass : List Nat
  err : Option GoError
  trace : List Event
  deriving DecidableEq, Repr

/-- The function `getPasswd`.  When raw mode was entered the deferred function
runs after the return values are set: it calls `restore`, drops its error, and
prints a newline. -/
def getPasswd (mode : echoMode) (os : Console) (getch : Nat → Nat × Option GoError) : Result :=
  if isTerminal os then
    match (makeRaw os).1 with
    | .error err => { pass := [], err := some err, trace := [Event.makeRaw] }
    | .ok oldState =>
      let s := readLoop mode getch [Event.makeRaw]
      { pass := s.pass, err := s.err,
        trace := s.trace ++ [Event.restore oldState, Event.write [10]] }
  else
    let s := readLoop mode getch []
    { pass := s.pass, err := s.err, trace := s.trace }

/-- The function `GetPasswd`. -/
def GetPasswd (os : Console) (getch : Nat → Nat × Option GoError) : Result :=
  getPasswd .echoModeNone os getch

/-- The function `GetPasswdMasked`. -/
def GetPasswdMasked (os : Console) (getch : Nat → Nat × Option GoError) : Result :=
  getPasswd .echoModeMask os getch

/-- The function `GetPasswdEchoed`. -/
def GetPasswdEchoed (os : Console) (getch : Nat → Nat × Option GoError) : Result :=
  getPasswd .echoModeEcho os getch

/-! ## Observations on a trace, and byte sources -/

/-- The bytes a trace writes to standard output, in order. -/
def display : List Event → List Nat
  | [] => []
  | Event.write bytes :: t => bytes ++ display t
  | _ :: t => display t

/-- The number of `getch` calls in a trace. -/
def reads (trace : List Event) : Nat :=
  trace.count Event.getch

/-- A byte source that delivers the bytes of `input` and then reports end of
input, as `defaultGetCh` does on a standard input holding `input`. -/
def feed (input : List Nat) : Nat → Nat × Option GoError :=
  fun n =>
    match input[n]? with
    | some v => (v, none)
    | none => (0, some GoError.EOF)

/-- A standard input that is not a terminal: the console test fails and so
does the `stty` probe. -/
def pipe : Console :=
  { IsTerminal := false
    MakeRaw := .error (GoError.other 1)
    Restore := fun _ => none
    GetCurrentProcess := none
    DuplicateHandle := none
    Output := fun _ => ("", some (GoError.other 1)) }

/-- A native console whose raw mode can be entered and left. -/
def console : Console :=
  { IsTerminal := true
    MakeRaw := .ok 7
    Restore := fun _ => none
    GetCurrentProcess := none
    DuplicateHandle := none
    Output := fun _ => ("", some (GoError.other 1)) }


/-! ## The buffer in the words of the specification -/

/-- One keystroke applied to the buffer, in the words of the specification: a
backspace (127 or 8) removes the last byte if there is one, a zero is ignored,
any other byte is appended. -/
def edit (buf : List Nat) (v : Nat) : List Nat :=
  if v = 127 ∨ v = 8 then buf.dropLast
  else if v = 0 then buf
  else buf ++ [v]

/-- The partial buffer accumulated from a sequence of bytes. -/
def accumulated (bytes : List Nat) : List Nat :=
  bytes.foldl edit []

/-- The loop state after one iteration that read the byte `v` and did not
leave the loop. -/
def next (mode : echoMode) (v : Nat) (s : LoopState) : LoopState :=
  let s1 := (loopBody mode (v, none) s).1
  { s1 with counter := s1.counter + 1 }

/-- The values of the first `k` reads of a byte source. -/
def firstBytes (getch : Nat → Nat × Option GoError) (k : Nat) : List Nat :=
  (List.range k).map (fun i => (getch i).1)

/-- Entering raw mode fails: standard input is a terminal and `makeRaw` returns
an error, so that `getPasswd` returns before its loop. -/
def rawModeFails (os : Console) : Bool :=
  isTerminal os &&
    (match (makeRaw os).1 with
     | .error _ => true
     | .ok _ => false)

/-- A read that stops the loop: a read error, a terminator 13 or 10, or the
interrupt byte 3. -/
def stops (r : Nat × Option GoError) : Bool :=
  r.2.isSome || r.1 == 13 || r.1 == 10 || r.1 == 3

/-- A sequence of reads with every read of the byte 0 deleted. -/
def dropZeros (input : List (Nat × Option GoError)) : List (Nat × Option GoError) :=
  input.filter (fun r => decide (r ≠ (0, none)))

/-- Two loop states with the same buffer, the same error and the same bytes on
the display. -/
def sameOutcome (s t : LoopState) : Prop :=
  s.pass = t.pass ∧ s.err = t.err ∧ display s.trace = display t.trace

/-! ## Kinds of reads, loop events and sample consoles -/

/-- The kind of a read, as the loop tells reads apart. -/
inductive ReadKind
  | readError
  | backspace
  | terminator
  | interrupt
  | zero
  | ordinary
  deriving DecidableEq, Repr

/-- The kind of the result of one `getch` call, by the tests of the loop body
in their order. -/
def kind (r : Nat × Option GoError) : ReadKind :=
  match r.2 with
  | some _ => .readError
  | none =>
    if r.1 = 127 ∨ r.1 = 8 then .backspace
    else if r.1 = 13 ∨ r.1 = 10 then .terminator
    else if r.1 = 3 then .interrupt
    else if r.1 = 0 then .zero
    else .ordinary

/-- An event of the loop: a `getch` call, or a write of bytes none of which is
the newline 10. -/
def isLoopEvent (e : Event) : Prop :=
  e = Event.getch ∨ ∃ bytes, e = Event.write bytes ∧ 10 ∉ bytes

/-- A trace without its writes to standard output. -/
def silent (trace : List Event) : List Event :=
  trace.filter (fun e =>
    match e with
    | Event.write _ => false
    | _ => true)

/-- A native console whose raw mode can be entered but whose restore fails. -/
def brokenRestore : Console :=
  { IsTerminal := true
    MakeRaw := .ok 7
    Restore := fun _ => some (GoError.other 2)
    GetCurrentProcess := none
    DuplicateHandle := none
    Output := fun _ => ("", some (GoError.other 1)) }

/-- A POSIX terminal that is no native console: `stty --save` prints the
settings followed by a newline, every other `stty` run succeeds silently. -/
def posix : Console :=
  { IsTerminal := false
    MakeRaw := .error (GoError.other 1)
    Restore := fun _ => some (GoError.other 1)
    GetCurrentProcess := none
    DuplicateHandle := none
    Output := fun args => if args = ["--save"] then ("500:5:bf\n", none) else ("", none) }

/-- A descriptor that is no native console and on which every `stty` run,
`stty --save` included, succeeds and prints nothing. -/
def blankStty : Console :=
  { IsTerminal := false
    MakeRaw := .error (GoError.other 1)
    Restore := fun _ => some (GoError.other 1)
    GetCurrentProcess := none
    DuplicateHandle := none
    Output := fun _ => ("", none) }

/-- A native console whose raw mode cannot be entered. -/
def noRaw : Console :=
  { IsTerminal := true
    MakeRaw := .error (GoError.other 3)
    Restore := fun _ => none
    GetCurrentProcess := none
    DuplicateHandle := none
    Output := fun _ => ("", some (GoError.other 1)) }


/-- What an iteration under the mask mode does, from the kind of its read and
the length of the buffer alone: whether it leaves the loop, the new length of
the buffer and the events it adds to the trace. -/
def maskStep (k : ReadKind) (len : Nat) : Bool × Nat × List Event :=
  match k with
  | .readError => (true, len, [Event.getch])
  | .backspace =>
    (false, len - 1,
      if len > 0 then [Event.getch, Event.write [8, 32, 8]] else [Event.getch])
  | .terminator => (true, len, [Event.getch])
  | .interrupt => (true, len, [Event.getch])
  | .zero => (false, len, [Event.getch])
  | .ordinary => (false, len + 1, [Event.getch, Event.write [42]])

/-- Two loop states at the same iteration with buffers of the same length and
the same trace. -/
def sameShape (s t : LoopState) : Prop :=
  s.counter = t.counter ∧ s.pass.length = t.pass.length ∧ s.trace = t.trace

/-- Two loop states at the same iteration with the same buffer, the same error
and the same trace apart from the writes. -/
def sameSecret (s t : LoopState) : Prop :=
  s.counter = t.counter ∧ s.pass = t.pass ∧ s.err = t.err ∧ silent s.trace = silent t.trace

/-! ## The loop: unfolding lemmas and the loop rule -/

theorem loopBody_nonStop (mode : echoMode) (v : Nat) (s : LoopState)
    (hv : v ≠ 13 ∧ v ≠ 10 ∧ v ≠ 3) :
    (loopBody mode (v, none) s).2 = false ∧
    (loopBody mode (v, none) s).1.pass = edit s.pass v ∧
    (loopBody mode (v, none) s).1.err = s.err ∧
    (loopBody mode (v, none) s).1.counter = s.counter := by
  obtain ⟨h13, h10, h3⟩ := hv
  unfold loopBody edit
  simp only [h13, h10, h3, or_self, if_false]
  split_ifs <;> simp_all [List.dropLast_eq_take]

theorem loopBody_counter (mode : echoMode) (r : Nat × Option GoError) (s : LoopState) :
    (loopBody mode r s).1.counter = s.counter := by
  unfold loopBody
  rcases r with ⟨v, _ | e⟩
  · simp only
    split_ifs <;> rfl
  · rfl

theorem forLoop_fuel (mode : echoMode) (getch : Nat → Nat × Option GoError) :
    ∀ (fuel : Nat) (s : LoopState), maxLength + 1 - s.counter ≤ fuel →
      forLoop mode getch fuel s = forLoop mode getch (maxLength + 1 - s.counter) s := by
  intro fuel
  induction fuel with
  | zero =>
    intro s h
    have : maxLength + 1 - s.counter = 0 := by omega
    rw [this]
  | succ n ih =>
    intro s h
    by_cases hc : s.counter ≤ maxLength
    · obtain ⟨m, hm⟩ : ∃ m, maxLength + 1 - s.counter = m + 1 := ⟨maxLength - s.counter, by omega⟩
      rw [hm]
      simp only [forLoop, hc, if_true]
      have hcnt := loopBody_counter mode (getch s.counter) s
      rcases hb : loopBody mode (getch s.counter) s with ⟨s1, b⟩
      rw [hb] at hcnt
      cases b
      · simp only
        have e1 := ih { s1 with counter := s1.counter + 1 } (by simp only; simp only at hcnt; omega)
        have e2 : maxLength + 1 - (s1.counter + 1) = m := by simp only at hcnt; omega
        simp only [e2] at e1
        exact e1
      · rfl
    · have : maxLength + 1 - s.counter = 0 := by omega
      rw [this]
      simp [forLoop, hc]

/-- The loop rule: an invariant `I` kept by every iteration that goes on, and a
postcondition `Post` reached when the loop condition fails or the body
breaks, give `Post` after the loop. -/
theorem forLoop_rule (mode : echoMode) (getch : Nat → Nat × Option GoError)
    (I Post : LoopState → Prop)
    (hexit : ∀ s, I s → ¬ s.counter ≤ maxLength → Post s)
    (hbreak : ∀ s s1, I s → s.counter ≤ maxLength →
      loopBody mode (getch s.counter) s = (s1, true) → Post s1)
    (hcont : ∀ s s1, I s → s.counter ≤ maxLength →
      loopBody mode (getch s.counter) s = (s1, false) →
      I { s1 with counter := s1.counter + 1 }) :
    ∀ (fuel : Nat) (s : LoopState), I s → maxLength + 1 - s.counter ≤ fuel →
      Post (forLoop mode getch fuel s) := by
  intro fuel
  induction fuel with
  | zero =>
    intro s hI h
    exact hexit s hI (by omega)
  | succ n ih =>
    intro s hI h
    by_cases hc : s.counter ≤ maxLength
    · simp only [forLoop, hc, if_true]
      have hcnt := loopBody_counter mode (getch s.counter) s
      rcases hb : loopBody mode (getch s.counter) s with ⟨s1, b⟩
      rw [hb] at hcnt
      cases b
      · simp only
        apply ih _ (hcont s s1 hI hc hb)
        simp only at hcnt ⊢
        omega
      · exact hbreak s s1 hI hc hb
    · simp only [forLoop, hc, if_false]
      exact hexit s hI hc

/-- Reads that do not stop the loop are consumed one by one: with `bytes` the
next values of the source, none of them 13, 10 or 3, the loop goes on from the
state `next` leaves after each of them. -/
theorem forLoop_steps (mode : echoMode) (getch : Nat → Nat × Option GoError) :
    ∀ (bytes : List Nat) (fuel : Nat) (s : LoopState),
      (∀ v ∈ bytes, v ≠ 13 ∧ v ≠ 10 ∧ v ≠ 3) →
      (∀ i (h : i < bytes.length), getch (s.counter + i) = (bytes[i], none)) →
      s.counter + bytes.length ≤ maxLength + 1 →
      forLoop mode getch (fuel + bytes.length) s =
        forLoop mode getch fuel (bytes.foldl (fun t v => next mode v t) s) := by
  intro bytes
  induction bytes with
  | nil => intro fuel s _ _ _; rfl
  | cons b bytes ih =>
    intro fuel s hns hget hlen
    have hb : getch s.counter = (b, none) := by simpa using hget 0 (by simp)
    simp only [List.length_cons] at hlen
    have hc : s.counter ≤ maxLength := by omega
    have hstep := loopBody_nonStop mode b s (hns b (by simp))
    have e : fuel + (b :: bytes).length = (fuel + bytes.length) + 1 := by simp; omega
    rw [e]
    simp only [forLoop, hc, if_true]
    rw [hb]
    rcases hbody : loopBody mode (b, none) s with ⟨s1, flag⟩
    rw [hbody] at hstep
    simp only at hstep
    obtain ⟨hflag, _, _, hcnt⟩ := hstep
    subst hflag
    simp only [List.foldl_cons]
    have hnext : next mode b s = { s1 with counter := s1.counter + 1 } := by
      simp only [next, hbody]
    rw [hnext]
    apply ih
    · intro v hv; exact hns v (by simp [hv])
    · intro i h
      have := hget (i + 1) (by simp; omega)
      simp only [List.getElem_cons_succ] at this
      simp only [hcnt]
      rw [← this]
      congr 1
      omega
    · simp only [hcnt]; omega

theorem foldl_next (mode : echoMode) :
    ∀ (bytes : List Nat) (s : LoopState), (∀ v ∈ bytes, v ≠ 13 ∧ v ≠ 10 ∧ v ≠ 3) →
      (bytes.foldl (fun t v => next mode v t) s).pass = bytes.foldl edit s.pass ∧
      (bytes.foldl (fun t v => next mode v t) s).err = s.err ∧
      (bytes.foldl (fun t v => next mode v t) s).counter = s.counter + bytes.length := by
  intro bytes
  induction bytes with
  | nil => intro s _; simp
  | cons b bytes ih =>
    intro s hns
    obtain ⟨_, hp, he, hc⟩ := loopBody_nonStop mode b s (hns b (by simp))
    obtain ⟨h1, h2, h3⟩ := ih (next mode b s) (fun v hv => hns v (by simp [hv]))
    simp only [List.foldl_cons, List.length_cons]
    refine ⟨?_, ?_, ?_⟩
    · rw [h1]; simp only [next, hp]
    · rw [h2]; simp only [next, he]
    · rw [h3]; simp only [next, hc]; omega

theorem loopBody_error (mode : echoMode) (r : Nat × Option GoError) (s : LoopState)
    (e : GoError) (h : r.2 = some e) :
    loopBody mode r s =
      ({ s with trace := s.trace ++ [Event.getch], err := some e }, true) := by
  unfold loopBody
  simp only [h]

theorem loopBody_enter (mode : echoMode) (t : Nat) (s : LoopState) (h : t = 13 ∨ t = 10) :
    loopBody mode (t, none) s = ({ s with trace := s.trace ++ [Event.getch] }, true) := by
  rcases h with h | h <;> subst h <;> simp [loopBody]

theorem loopBody_interrupt (mode : echoMode) (s : LoopState) :
    loopBody mode (3, none) s =
      ({ s with trace := s.trace ++ [Event.getch], err := some GoError.ErrInterrupted }, true) := by
  simp [loopBody]

/-- A loop that breaks after reading `bytes`: the result of `readLoop` is the
state the breaking iteration leaves. -/
theorem readLoop_break (mode : echoMode) (getch : Nat → Nat × Option GoError)
    (trace : List Event) (bytes : List Nat)
    (hns : ∀ v ∈ bytes, v ≠ 13 ∧ v ≠ 10 ∧ v ≠ 3)
    (hget : ∀ i (h : i < bytes.length), getch i = (bytes[i], none))
    (hlen : bytes.length ≤ maxLength)
    (s1 : LoopState)
    (hstop : loopBody mode (getch bytes.length)
      (bytes.foldl (fun t v => next mode v t)
        { pass := [], err := none, counter := 0, trace := trace }) = (s1, true)) :
    readLoop mode getch trace = s1 := by
  have hfold := foldl_next mode bytes
    { pass := [], err := none, counter := 0, trace := trace } hns
  obtain ⟨_, _, hcnt⟩ := hfold
  simp only [Nat.zero_add] at hcnt
  have hsteps := forLoop_steps mode getch bytes (maxLength + 1 - bytes.length)
    { pass := [], err := none, counter := 0, trace := trace } hns
    (by intro i h; simpa using hget i h) (by simp only [Nat.zero_add]; omega)
  have hfuel : maxLength + 1 - bytes.length + bytes.length = maxLength + 1 := by omega
  rw [hfuel] at hsteps
  obtain ⟨m, hm⟩ : ∃ m, maxLength + 1 - bytes.length = m + 1 :=
    ⟨maxLength - bytes.length, by omega⟩
  have hc1 := loopBody_counter mode (getch bytes.length)
    (bytes.foldl (fun t v => next mode v t)
      { pass := [], err := none, counter := 0, trace := trace })
  rw [hstop] at hc1
  simp only at hc1
  have hloop : forLoop mode getch (maxLength + 1)
      { pass := [], err := none, counter := 0, trace := trace } = s1 := by
    rw [hsteps, hm]
    simp only [forLoop, hcnt, hlen, if_true, hstop]
  unfold readLoop
  simp only [hloop]
  have : ¬ s1.counter > maxLength := by rw [hc1, hcnt]; omega
  simp only [this, if_false]

/-- A loop whose first `maxLength + 1` reads do not stop it runs to the end of
its range and reports the exceeded limit. -/
theorem readLoop_full (mode : echoMode) (getch : Nat → Nat × Option GoError)
    (trace : List Event) (bytes : List Nat)
    (hns : ∀ v ∈ bytes, v ≠ 13 ∧ v ≠ 10 ∧ v ≠ 3)
    (hget : ∀ i (h : i < bytes.length), getch i = (bytes[i], none))
    (hlen : bytes.length = maxLength + 1) :
    readLoop mode getch trace =
      { (bytes.foldl (fun t v => next mode v t)
          { pass := [], err := none, counter := 0, trace := trace }) with
        err := some GoError.ErrMaxLengthExceeded } := by
  have hfold := foldl_next mode bytes
    { pass := [], err := none, counter := 0, trace := trace } hns
  obtain ⟨_, _, hcnt⟩ := hfold
  simp only [Nat.zero_add] at hcnt
  have hsteps := forLoop_steps mode getch bytes 0
    { pass := [], err := none, counter := 0, trace := trace } hns
    (by intro i h; simpa using hget i h) (by simp only [Nat.zero_add]; omega)
  rw [Nat.zero_add, hlen] at hsteps
  have hloop : forLoop mode getch (maxLength + 1)
      { pass := [], err := none, counter := 0, trace := trace } =
      bytes.foldl (fun t v => next mode v t)
        { pass := [], err := none, counter := 0, trace := trace } := by
    rw [hsteps]; rfl
  unfold readLoop
  simp only [hloop]
  have : (bytes.foldl (fun t v => next mode v t)
      { pass := [], err := none, counter := 0, trace := trace }).counter > maxLength := by
    rw [hcnt, hlen]; omega
  simp only [this, if_true]

theorem firstBytes_length (getch : Nat → Nat × Option GoError) (k : Nat) :
    (firstBytes getch k).length = k := by
  simp [firstBytes]

theorem firstBytes_get (getch : Nat → Nat × Option GoError) (k : Nat)
    (hok : ∀ i, i < k → (getch i).2 = none) :
    ∀ i (h : i < (firstBytes getch k).length),
      getch i = ((firstBytes getch k)[i], none) := by
  intro i h
  have hi : i < k := by simpa [firstBytes] using h
  have := hok i hi
  simp only [firstBytes, List.getElem_map, List.getElem_range]
  exact Prod.ext rfl this

theorem firstBytes_mem (getch : Nat → Nat × Option GoError) (k : Nat) (P : Nat → Prop)
    (hP : ∀ i, i < k → P (getch i).1) :
    ∀ v ∈ firstBytes getch k, P v := by
  intro v hv
  simp only [firstBytes, List.mem_map, List.mem_range] at hv
  obtain ⟨i, hi, rfl⟩ := hv
  exact hP i hi

/-- The three ways `getPasswd` goes: raw mode fails, raw mode is entered, or
standard input is no terminal. -/
theorem getPasswd_cases (mode : echoMode) (os : Console)
    (getch : Nat → Nat × Option GoError) :
    (∃ e, rawModeFails os = true ∧
      getPasswd mode os getch = { pass := [], err := some e, trace := [Event.makeRaw] }) ∨
    (∃ oldState, rawModeFails os = false ∧
      getPasswd mode os getch =
        { pass := (readLoop mode getch [Event.makeRaw]).pass,
          err := (readLoop mode getch [Event.makeRaw]).err,
          trace := (readLoop mode getch [Event.makeRaw]).trace ++
            [Event.restore oldState, Event.write [10]] }) ∨
    (rawModeFails os = false ∧
      getPasswd mode os getch =
        { pass := (readLoop mode getch []).pass,
          err := (readLoop mode getch []).err,
          trace := (readLoop mode getch []).trace }) := by
  unfold getPasswd rawModeFails
  cases hterm : isTerminal os
  · right; right
    simp
  · rcases hraw : (makeRaw os).1 with e | oldState
    · left
      exact ⟨e, by simp⟩
    · right; left
      exact ⟨oldState, by simp⟩

/-- When raw mode does not fail, buffer and error of `getPasswd` are those of
the loop. -/
theorem getPasswd_loop (mode : echoMode) (os : Console)
    (getch : Nat → Nat × Option GoError) (hraw : rawModeFails os = false) :
    ∃ trace, (getPasswd mode os getch).pass = (readLoop mode getch trace).pass ∧
      (getPasswd mode os getch).err = (readLoop mode getch trace).err := by
  rcases getPasswd_cases mode os getch with ⟨e, h, _⟩ | ⟨_, _, h⟩ | ⟨_, h⟩
  · rw [hraw] at h; cases h
  · exact ⟨[Event.makeRaw], by rw [h], by rw [h]⟩
  · exact ⟨[], by rw [h], by rw [h]⟩

theorem foldl_edit_plain :
    ∀ (bytes buf : List Nat), (∀ v ∈ bytes, v ≠ 0 ∧ v ≠ 8 ∧ v ≠ 127) →
      bytes.foldl edit buf = buf ++ bytes := by
  intro bytes
  induction bytes with
  | nil => intro buf _; simp
  | cons b bytes ih =>
    intro buf h
    obtain ⟨h0, h8, h127⟩ := h b (by simp)
    rw [List.foldl_cons, ih _ (fun v hv => h v (by simp [hv]))]
    simp [edit, h0, h8, h127]

/-- A call whose loop is reached and breaks after the reads `bytes`: the buffer
is the one accumulated from `bytes`, the error the one the break sets. -/
theorem getPasswd_break (mode : echoMode) (os : Console)
    (getch : Nat → Nat × Option GoError) (bytes : List Nat) (err1 : Option GoError)
    (hraw : rawModeFails os = false)
    (hns : ∀ v ∈ bytes, v ≠ 13 ∧ v ≠ 10 ∧ v ≠ 3)
    (hget : ∀ i (h : i < bytes.length), getch i = (bytes[i], none))
    (hlen : bytes.length ≤ maxLength)
    (hstop : ∀ s : LoopState, s.err = none →
      (loopBody mode (getch bytes.length) s).2 = true ∧
      (loopBody mode (getch bytes.length) s).1.pass = s.pass ∧
      (loopBody mode (getch bytes.length) s).1.err = err1) :
    (getPasswd mode os getch).pass = accumulated bytes ∧
    (getPasswd mode os getch).err = err1 := by
  obtain ⟨trace, hp, he⟩ := getPasswd_loop mode os getch hraw
  obtain ⟨fp, fe, _⟩ := foldl_next mode bytes
    { pass := [], err := none, counter := 0, trace := trace } hns
  obtain ⟨h2, h1, h3⟩ := hstop _ fe
  have hb := readLoop_break mode getch trace bytes hns hget hlen _ (Prod.ext rfl h2)
  rw [hp, he, hb, h1, h3, fp]
  exact ⟨rfl, rfl⟩

/-- A call whose loop is reached and whose first `maxLength + 1` reads, the
values `bytes`, do not stop it: the buffer is the one accumulated from
`bytes`, the error `ErrMaxLengthExceeded`. -/
theorem getPasswd_full (mode : echoMode) (os : Console)
    (getch : Nat → Nat × Option GoError) (bytes : List Nat)
    (hraw : rawModeFails os = false)
    (hns : ∀ v ∈ bytes, v ≠ 13 ∧ v ≠ 10 ∧ v ≠ 3)
    (hget : ∀ i (h : i < bytes.length), getch i = (bytes[i], none))
    (hlen : bytes.length = maxLength + 1) :
    (getPasswd mode os getch).pass = accumulated bytes ∧
    (getPasswd mode os getch).err = some GoError.ErrMaxLengthExceeded := by
  obtain ⟨trace, hp, he⟩ := getPasswd_loop mode os getch hraw
  obtain ⟨fp, _, _⟩ := foldl_next mode bytes
    { pass := [], err := none, counter := 0, trace := trace } hns
  have hfull := readLoop_full mode getch trace bytes hns hget hlen
  rw [hp, he, hfull]
  exact ⟨fp, rfl⟩

/-- The scenario of 513 bytes of value 120 and no terminator: every one of the
513 bytes is in the returned buffer. -/
theorem getPasswd_flood (mode : echoMode) :
    (getPasswd mode pipe (feed (List.replicate 513 120))).pass = List.replicate 513 120 ∧
    (getPasswd mode pipe (feed (List.replicate 513 120))).err =
      some GoError.ErrMaxLengthExceeded := by
  have h := getPasswd_full mode pipe (feed (List.replicate 513 120)) (List.replicate 513 120)
    (by decide)
    (by intro v hv; rw [List.eq_of_mem_replicate hv]; decide)
    (by
      intro i h
      unfold feed
      rw [List.getElem?_eq_getElem h])
    (by rw [List.length_replicate]; rfl)
  refine ⟨?_, h.2⟩
  rw [h.1]
  unfold accumulated
  rw [foldl_edit_plain _ [] (by intro v hv; rw [List.eq_of_mem_replicate hv]; decide)]
  exact List.nil_append _

/-- What one iteration does to the buffer: nothing, the last byte dropped, or
one byte appended that is none of the bytes the loop interprets. -/
theorem loopBody_pass_cases (mode : echoMode) (r : Nat × Option GoError) (s : LoopState) :
    (loopBody mode r s).1.pass = s.pass ∨
    (loopBody mode r s).1.pass = s.pass.dropLast ∨
    ∃ v, (v ≠ 127 ∧ v ≠ 8 ∧ v ≠ 13 ∧ v ≠ 10 ∧ v ≠ 3 ∧ v ≠ 0) ∧
      (loopBody mode r s).1.pass = s.pass ++ [v] := by
  unfold loopBody
  rcases r with ⟨v, _ | e⟩
  · simp only
    split_ifs <;> simp_all [List.dropLast_eq_take]
  · simp

theorem loopBody_pass (mode : echoMode) (r : Nat × Option GoError) (s : LoopState) :
    (loopBody mode r s).1.pass.length ≤ s.pass.length + 1 ∧
    ((loopBody mode r s).2 = true → (loopBody mode r s).1.pass = s.pass) := by
  unfold loopBody
  rcases r with ⟨v, _ | e⟩
  · simp only
    split_ifs <;> simp
    omega
  · simp

/-- The buffer never holds more bytes than the loop has made iterations. -/
theorem forLoop_length (mode : echoMode) (getch : Nat → Nat × Option GoError)
    (trace : List Event) :
    (forLoop mode getch (maxLength + 1)
      { pass := [], err := none, counter := 0, trace := trace }).pass.length ≤
    (forLoop mode getch (maxLength + 1)
      { pass := [], err := none, counter := 0, trace := trace }).counter ∧
    (forLoop mode getch (maxLength + 1)
      { pass := [], err := none, counter := 0, trace := trace }).counter ≤ maxLength + 1 := by
  apply forLoop_rule mode getch
    (fun s => s.pass.length ≤ s.counter ∧ s.counter ≤ maxLength + 1)
    (fun s => s.pass.length ≤ s.counter ∧ s.counter ≤ maxLength + 1)
  · intro s h _; exact h
  · intro s s1 h hc hb
    have hp := (loopBody_pass mode (getch s.counter) s).2
    have hcnt := loopBody_counter mode (getch s.counter) s
    rw [hb] at hp hcnt
    have hp1 : s1.pass = s.pass := hp rfl
    have hc1 : s1.counter = s.counter := hcnt
    rw [hp1, hc1]
    exact h
  · intro s s1 h hc hb
    have hp := (loopBody_pass mode (getch s.counter) s).1
    have hcnt := loopBody_counter mode (getch s.counter) s
    rw [hb] at hp hcnt
    simp only at hp hcnt ⊢
    omega
  · simp
  · simp

theorem readLoop_length (mode : echoMode) (getch : Nat → Nat × Option GoError)
    (trace : List Event) :
    (readLoop mode getch trace).pass.length ≤
      if (readLoop mode getch trace).err = some GoError.ErrMaxLengthExceeded
      then maxLength + 1 else maxLength := by
  have h := forLoop_length mode getch trace
  unfold readLoop
  simp only
  by_cases hc : (forLoop mode getch (maxLength + 1)
      { pass := [], err := none, counter := 0, trace := trace }).counter > maxLength
  · simp only [hc, if_true]
    omega
  · simp only [hc, if_false]
    split_ifs <;> omega

theorem reads_append (a b : List Event) : reads (a ++ b) = reads a + reads b := by
  simp [reads]

theorem loopBody_reads (mode : echoMode) (r : Nat × Option GoError) (s : LoopState) :
    reads (loopBody mode r s).1.trace = reads s.trace + 1 := by
  unfold loopBody
  rcases r with ⟨v, _ | e⟩
  · simp only
    split_ifs <;> simp [reads_append] <;> simp [reads]
  · simp [reads_append]; simp [reads]

theorem readLoop_reads (mode : echoMode) (getch : Nat → Nat × Option GoError)
    (trace : List Event) (h0 : reads trace = 0) :
    reads (readLoop mode getch trace).trace ≤ maxLength + 1 := by
  have h : reads (forLoop mode getch (maxLength + 1)
      { pass := [], err := none, counter := 0, trace := trace }).trace ≤ maxLength + 1 := by
    apply forLoop_rule mode getch
      (fun s => reads s.trace ≤ s.counter ∧ s.counter ≤ maxLength + 1)
      (fun s => reads s.trace ≤ maxLength + 1)
    · intro s h _; omega
    · intro s s1 h hc hb
      have hr := loopBody_reads mode (getch s.counter) s
      rw [hb] at hr
      simp only at hr
      omega
    · intro s s1 h hc hb
      have hr := loopBody_reads mode (getch s.counter) s
      have hcnt := loopBody_counter mode (getch s.counter) s
      rw [hb] at hr hcnt
      simp only at hr hcnt ⊢
      omega
    · simp [h0]
    · simp
  unfold readLoop
  simp only
  split_ifs <;> exact h

/-- The bytes the loop interprets are never kept. -/
theorem loopBody_clean (mode : echoMode) (r : Nat × Option GoError) (s : LoopState)
    (P : Nat → Prop)
    (hP : ∀ v, v ≠ 127 → v ≠ 8 → v ≠ 13 → v ≠ 10 → v ≠ 3 → v ≠ 0 → P v)
    (hs : ∀ b ∈ s.pass, P b) :
    ∀ b ∈ (loopBody mode r s).1.pass, P b := by
  intro b hb
  rcases loopBody_pass_cases mode r s with h | h | ⟨v, hv, h⟩
  · rw [h] at hb; exact hs b hb
  · rw [h] at hb; exact hs b (List.mem_of_mem_dropLast hb)
  · rw [h] at hb
    rcases List.mem_append.mp hb with hb | hb
    · exact hs b hb
    · rw [List.mem_singleton.mp hb]
      exact hP v hv.1 hv.2.1 hv.2.2.1 hv.2.2.2.1 hv.2.2.2.2.1 hv.2.2.2.2.2

theorem readLoop_clean (mode : echoMode) (getch : Nat → Nat × Option GoError)
    (trace : List Event) (P : Nat → Prop)
    (hP : ∀ v, v ≠ 127 → v ≠ 8 → v ≠ 13 → v ≠ 10 → v ≠ 3 → v ≠ 0 → P v) :
    ∀ b ∈ (readLoop mode getch trace).pass, P b := by
  have h : ∀ b ∈ (forLoop mode getch (maxLength + 1)
      { pass := [], err := none, counter := 0, trace := trace }).pass, P b := by
    apply forLoop_rule mode getch (fun s => ∀ b ∈ s.pass, P b) (fun s => ∀ b ∈ s.pass, P b)
    · intro s h _; exact h
    · intro s s1 h hc hb
      have := loopBody_clean mode (getch s.counter) s P hP h
      rw [hb] at this
      exact this
    · intro s s1 h hc hb
      have := loopBody_clean mode (getch s.counter) s P hP h
      rw [hb] at this
      exact this
    · simp
    · simp
  unfold readLoop
  simp only
  split_ifs <;> exact h

theorem display_append (a b : List Event) : display (a ++ b) = display a ++ display b := by
  induction a with
  | nil => rfl
  | cons e a ih =>
    cases e <;> simp [display, ih]

theorem loopBody_hidden (r : Nat × Option GoError) (s : LoopState) :
    display (loopBody .echoModeNone r s).1.trace = display s.trace := by
  unfold loopBody
  rcases r with ⟨v, _ | e⟩
  · simp only
    split_ifs <;> simp_all [display_append, display, bs, mask]
  · simp [display_append, display]

theorem readLoop_hidden (getch : Nat → Nat × Option GoError) (trace : List Event) :
    display (readLoop .echoModeNone getch trace).trace = display trace := by
  have h : display (forLoop .echoModeNone getch (maxLength + 1)
      { pass := [], err := none, counter := 0, trace := trace }).trace = display trace := by
    apply forLoop_rule .echoModeNone getch (fun s => display s.trace = display trace)
      (fun s => display s.trace = display trace)
    · intro s h _; exact h
    · intro s s1 h hc hb
      have := loopBody_hidden (getch s.counter) s
      rw [hb] at this
      simp only at this
      rw [this, h]
    · intro s s1 h hc hb
      have := loopBody_hidden (getch s.counter) s
      rw [hb] at this
      simp only at this ⊢
      rw [this, h]
    · rfl
    · simp
  unfold readLoop
  simp only
  split_ifs <;> exact h

/-! ## Zero bytes -/

theorem loopBody_sameOutcome (mode : echoMode) (r : Nat × Option GoError) (s t : LoopState)
    (h : sameOutcome s t) :
    sameOutcome (loopBody mode r s).1 (loopBody mode r t).1 ∧
    (loopBody mode r s).2 = (loopBody mode r t).2 := by
  obtain ⟨hp, he, hd⟩ := h
  unfold loopBody sameOutcome
  rcases r with ⟨v, _ | e⟩
  · simp only [hp]
    split_ifs <;> simp [display_append, display, hd, he]
  · simp [display_append, display, hd, hp]

theorem loopBody_zero (mode : echoMode) (s : LoopState) :
    sameOutcome (loopBody mode (0, none) s).1 s := by
  simp [loopBody, sameOutcome, display_append, display]

theorem next_sameOutcome (mode : echoMode) (v : Nat) (s t : LoopState)
    (h : sameOutcome s t) : sameOutcome (next mode v s) (next mode v t) := by
  have := (loopBody_sameOutcome mode (v, none) s t h).1
  exact this

theorem next_zero (mode : echoMode) (s : LoopState) : sameOutcome (next mode 0 s) s :=
  loopBody_zero mode s

/-- Zero bytes among reads that do not stop the loop change neither buffer,
error nor display. -/
theorem foldl_next_filter (mode : echoMode) :
    ∀ (bytes : List Nat) (s t : LoopState), sameOutcome s t →
      sameOutcome (bytes.foldl (fun u v => next mode v u) s)
        ((bytes.filter (fun v => decide (v ≠ 0))).foldl (fun u v => next mode v u) t) := by
  intro bytes
  induction bytes with
  | nil => intro s t h; exact h
  | cons b bytes ih =>
    intro s t h
    by_cases hb : b = 0
    · subst hb
      simp only [List.foldl_cons, ne_eq, not_true_eq_false, decide_False, Bool.false_eq_true,
        not_false_eq_true, List.filter_cons_of_neg]
      apply ih
      obtain ⟨h1, h2, h3⟩ := next_zero mode s
      exact ⟨h1.trans h.1, h2.trans h.2.1, h3.trans h.2.2⟩
    · have hd : decide (b ≠ 0) = true := by simpa using hb
      rw [List.filter_cons_of_pos (p := fun v => decide (v ≠ 0)) hd]
      simp only [List.foldl_cons]
      exact ih _ _ (next_sameOutcome mode b s t h)

/-- The reads before the first one that stops the loop. -/
theorem first_stop :
    ∀ (input : List (Nat × Option GoError)) (n : Nat),
      (∃ i, i < n ∧ ∃ h : i < input.length, stops input[i] = true) →
      ∃ (pre : List Nat) (r : Nat × Option GoError) (post : List (Nat × Option GoError)),
        input = pre.map (fun v => (v, none)) ++ r :: post ∧
        (∀ v ∈ pre, v ≠ 13 ∧ v ≠ 10 ∧ v ≠ 3) ∧ pre.length < n ∧ stops r = true := by
  intro input
  induction input with
  | nil =>
    intro n h
    obtain ⟨i, _, h, _⟩ := h
    exact absurd h (by simp)
  | cons a l ih =>
    intro n h
    obtain ⟨i, hin, hil, hstop⟩ := h
    by_cases ha : stops a = true
    · exact ⟨[], a, l, rfl, by simp, by simpa using (by omega : 0 < n), ha⟩
    · cases i with
      | zero => exact absurd hstop ha
      | succ j =>
        have hjl : j < l.length := by simpa using hil
        obtain ⟨pre, r, post, hl, hns, hlen, hr⟩ := ih (n - 1)
          ⟨j, by omega, hjl, by simpa using hstop⟩
        rcases a with ⟨v, _ | e⟩
        · have hv : v ≠ 13 ∧ v ≠ 10 ∧ v ≠ 3 := by
            simp only [stops, Option.isSome_none, Bool.false_or, Bool.or_eq_true, beq_iff_eq,
              not_or] at ha
            exact ⟨ha.1.1, ha.1.2, ha.2⟩
          refine ⟨v :: pre, r, post, by simp [hl], ?_, by simp; omega, hr⟩
          intro w hw
          rcases List.mem_cons.mp hw with hw | hw
          · rw [hw]; exact hv
          · exact hns w hw
        · exact absurd (by simp [stops]) ha

theorem dropZeros_split (pre : List Nat) (r : Nat × Option GoError)
    (post : List (Nat × Option GoError)) (hr : stops r = true) :
    dropZeros (pre.map (fun v => (v, none)) ++ r :: post) =
      (pre.filter (fun v => decide (v ≠ 0))).map (fun v => (v, none)) ++
        r :: dropZeros post := by
  have hr0 : decide (r ≠ (0, none)) = true := by
    rcases r with ⟨v, _ | e⟩
    · have : v ≠ 0 := by
        intro h0
        subst h0
        simp [stops] at hr
      simp [this]
    · simp
  unfold dropZeros
  rw [List.filter_append,
    List.filter_cons_of_pos (p := fun r : Nat × Option GoError => decide (r ≠ (0, none))) hr0]
  congr 1
  induction pre with
  | nil => rfl
  | cons b pre ih =>
    by_cases hb : b = 0
    · subst hb
      simpa using ih
    · have h1 : decide (b ≠ 0) = true := by simpa using hb
      have h2 : decide ((b, (none : Option GoError)) ≠ (0, none)) = true := by simpa using hb
      rw [List.map_cons,
        List.filter_cons_of_pos
          (p := fun r : Nat × Option GoError => decide (r ≠ (0, none))) h2,
        List.filter_cons_of_pos (p := fun v => decide (v ≠ 0)) h1,
        List.map_cons, ih]

theorem loopBody_stops (mode : echoMode) (r : Nat × Option GoError) (s : LoopState)
    (hr : stops r = true) : (loopBody mode r s).2 = true := by
  unfold loopBody
  rcases r with ⟨v, _ | e⟩
  · simp only [stops, Option.isSome_none, Bool.false_or, Bool.or_eq_true, beq_iff_eq] at hr
    simp only
    split_ifs <;> first | rfl | omega
  · rfl

/-- A source that delivers non-stopping reads `pre` and then a stopping read
`r`: the loop ends in the state the iteration on `r` leaves. -/
theorem readLoop_upto (mode : echoMode) (getch : Nat → Nat × Option GoError)
    (trace : List Event) (pre : List Nat) (r : Nat × Option GoError)
    (rest : List (Nat × Option GoError))
    (hget : ∀ i (h : i < (pre.map (fun v => (v, none)) ++ r :: rest).length),
      getch i = (pre.map (fun v => (v, none)) ++ r :: rest)[i])
    (hns : ∀ v ∈ pre, v ≠ 13 ∧ v ≠ 10 ∧ v ≠ 3)
    (hlen : pre.length ≤ maxLength) (hr : stops r = true) :
    readLoop mode getch trace =
      (loopBody mode r (pre.foldl (fun u v => next mode v u)
        { pass := [], err := none, counter := 0, trace := trace })).1 := by
  have hpre : ∀ i (h : i < pre.length), getch i = (pre[i], none) := by
    intro i h
    have := hget i (by simp; omega)
    rw [this, List.getElem_append_left (by simpa using h)]
    simp
  have hstop : getch pre.length = r := by
    have := hget pre.length (by simp)
    rw [this, List.getElem_append_right (by simp)]
    simp
  apply readLoop_break mode getch trace pre hns hpre hlen
  rw [hstop]
  exact Prod.ext rfl (loopBody_stops mode r _ hr)

/-- Deleting the zero reads from a sequence of reads whose loop stops within
its range changes neither buffer, error nor display of the loop. -/
theorem readLoop_dropZeros (mode : echoMode) (getch getch0 : Nat → Nat × Option GoError)
    (trace : List Event) (input : List (Nat × Option GoError))
    (hget : ∀ i (h : i < input.length), getch i = input[i])
    (hget0 : ∀ i (h : i < (dropZeros input).length), getch0 i = (dropZeros input)[i])
    (hstop : ∃ i, i < maxLength + 1 ∧ ∃ h : i < input.length, stops input[i] = true) :
    sameOutcome (readLoop mode getch trace) (readLoop mode getch0 trace) := by
  obtain ⟨pre, r, post, hin, hns, hlen, hr⟩ := first_stop input (maxLength + 1) hstop
  subst hin
  rw [dropZeros_split pre r post hr] at hget0
  have hns0 : ∀ v ∈ pre.filter (fun v => decide (v ≠ 0)), v ≠ 13 ∧ v ≠ 10 ∧ v ≠ 3 :=
    fun v hv => hns v (List.mem_of_mem_filter hv)
  have hlen0 : (pre.filter (fun v => decide (v ≠ 0))).length ≤ maxLength :=
    Nat.le_trans (List.length_filter_le _ _) (by omega)
  rw [readLoop_upto mode getch trace pre r post hget hns (by omega) hr,
    readLoop_upto mode getch0 trace _ r _ hget0 hns0 hlen0 hr]
  exact (loopBody_sameOutcome mode r _ _
    (foldl_next_filter mode pre _ _ ⟨rfl, rfl, rfl⟩)).1

/-- The three ways `getPasswd` goes depend on the console only, not on the
byte source. -/
theorem getPasswd_shape (mode : echoMode) (os : Console) :
    (∃ e, ∀ getch : Nat → Nat × Option GoError,
      getPasswd mode os getch = { pass := [], err := some e, trace := [Event.makeRaw] }) ∨
    (∃ oldState, ∀ getch : Nat → Nat × Option GoError,
      getPasswd mode os getch =
        { pass := (readLoop mode getch [Event.makeRaw]).pass,
          err := (readLoop mode getch [Event.makeRaw]).err,
          trace := (readLoop mode getch [Event.makeRaw]).trace ++
            [Event.restore oldState, Event.write [10]] }) ∨
    (∀ getch : Nat → Nat × Option GoError,
      getPasswd mode os getch =
        { pass := (readLoop mode getch []).pass,
          err := (readLoop mode getch []).err,
          trace := (readLoop mode getch []).trace }) := by
  unfold getPasswd
  cases hterm : isTerminal os
  · right; right
    intro getch
    simp
  · rcases hraw : (makeRaw os).1 with e | oldState
    · left
      exact ⟨e, fun _ => by simp⟩
    · right; left
      exact ⟨oldState, fun _ => by simp⟩

/-- On a standard input that is no terminal `getPasswd` is its loop. -/
theorem getPasswd_not_terminal (mode : echoMode) (os : Console)
    (getch : Nat → Nat × Option GoError) (hterm : isTerminal os = false) :
    getPasswd mode os getch =
      { pass := (readLoop mode getch []).pass,
        err := (readLoop mode getch []).err,
        trace := (readLoop mode getch []).trace } := by
  unfold getPasswd
  simp [hterm]

theorem foldl_next_reads (mode : echoMode) :
    ∀ (bytes : List Nat) (s : LoopState),
      reads (bytes.foldl (fun t v => next mode v t) s).trace = reads s.trace + bytes.length := by
  intro bytes
  induction bytes with
  | nil => intro s; rfl
  | cons b bytes ih =>
    intro s
    have hr : reads (next mode b s).trace = reads s.trace + 1 := loopBody_reads mode (b, none) s
    rw [List.foldl_cons, ih, hr, List.length_cons]
    omega

theorem foldl_edit_zeros :
    ∀ (bytes buf : List Nat), (∀ v ∈ bytes, v = 0) → bytes.foldl edit buf = buf := by
  intro bytes
  induction bytes with
  | nil => intro buf _; rfl
  | cons b bytes ih =>
    intro buf h
    have hb : b = 0 := h b (by simp)
    rw [List.foldl_cons, ih _ (fun v hv => h v (by simp [hv])), hb]
    rfl

/-- An endless run of zero bytes: the loop makes all its `maxLength + 1` reads
and keeps none of the bytes. -/
theorem getPasswd_zero_flood (mode : echoMode) :
    reads (getPasswd mode pipe (fun _ => (0, none))).trace = maxLength + 1 ∧
    (getPasswd mode pipe (fun _ => (0, none))).pass = [] := by
  have hmem : ∀ v ∈ firstBytes (fun _ => ((0 : Nat), (none : Option GoError))) (maxLength + 1),
      v = 0 :=
    firstBytes_mem _ _ (fun v => v = 0) (fun _ _ => rfl)
  have hns : ∀ v ∈ firstBytes (fun _ => ((0 : Nat), (none : Option GoError))) (maxLength + 1),
      v ≠ 13 ∧ v ≠ 10 ∧ v ≠ 3 := by
    intro v hv
    rw [hmem v hv]
    decide
  have hfull := readLoop_full mode (fun _ => (0, none)) []
    (firstBytes (fun _ => (0, none)) (maxLength + 1)) hns
    (firstBytes_get _ _ (fun _ _ => rfl)) (firstBytes_length _ _)
  obtain ⟨fp, _, _⟩ := foldl_next mode
    (firstBytes (fun _ => ((0 : Nat), (none : Option GoError))) (maxLength + 1))
    { pass := [], err := none, counter := 0, trace := [] } hns
  have hr := foldl_next_reads mode
    (firstBytes (fun _ => ((0 : Nat), (none : Option GoError))) (maxLength + 1))
    { pass := [], err := none, counter := 0, trace := [] }
  rw [getPasswd_not_terminal mode pipe (fun _ => (0, none)) (by decide), hfull]
  simp only
  rw [hr, fp, firstBytes_length, foldl_edit_zeros _ _ hmem]
  exact ⟨by simp [reads], rfl⟩

/-! ## The claims -/

/-- C1, as stated, fails: fed the bytes 97, 127, 13, which end in the
terminator 13, `GetPasswd` returns the empty buffer and not the two bytes that
precede the terminator. -/
theorem GetPasswd_backspace_counterexample :
    (GetPasswd pipe (feed [97, 127, 13])).pass = [] ∧
    (GetPasswd pipe (feed [97, 127, 13])).pass ≠ [97, 127] := by
  decide

/-- C1 (amended): fed at most `maxLength` bytes other than 13, 10 and 3 and then
a terminator 13 or 10, `GetPasswd` returns, with a nil error, the buffer
accumulated from the bytes before the terminator; when none of them is 0, 8 or
127 either, that buffer is exactly those bytes.  Raw mode is assumed not to
fail, so that the loop is reached. -/
theorem GetPasswd_line (os : Console) (getch : Nat → Nat × Option GoError)
    (pre : List Nat) (t : Nat)
    (hraw : rawModeFails os = false)
    (ht : t = 13 ∨ t = 10)
    (hlen : pre.length ≤ maxLength)
    (hns : ∀ v ∈ pre, v ≠ 13 ∧ v ≠ 10 ∧ v ≠ 3)
    (hfeed : ∀ i (h : i < (pre ++ [t]).length), getch i = ((pre ++ [t])[i], none)) :
    (GetPasswd os getch).pass = accumulated pre ∧
    (GetPasswd os getch).err = none ∧
    ((∀ v ∈ pre, v ≠ 0 ∧ v ≠ 8 ∧ v ≠ 127) → (GetPasswd os getch).pass = pre) := by
  have hget : ∀ i (h : i < pre.length), getch i = (pre[i], none) := by
    intro i h
    have := hfeed i (by simp; omega)
    rwa [List.getElem_append_left h] at this
  have hterm : getch pre.length = (t, none) := by
    have := hfeed pre.length (by simp)
    simpa using this
  have hmain := getPasswd_break .echoModeNone os getch pre none hraw hns hget hlen
    (by
      intro s hs
      rw [hterm, loopBody_enter _ t s ht]
      exact ⟨rfl, rfl, hs⟩)
  refine ⟨hmain.1, hmain.2, ?_⟩
  intro hplain
  have h := hmain.1
  unfold accumulated at h
  rw [foldl_edit_plain pre [] hplain] at h
  simpa using h

/-- C1, at the scenario of the specification: the bytes 104, 105, 13 give the
buffer 104, 105 and a nil error. -/
theorem GetPasswd_line_witness :
    (GetPasswd pipe (feed [104, 105, 13])).pass = [104, 105] ∧
    (GetPasswd pipe (feed [104, 105, 13])).err = none := by
  have h := GetPasswd_line pipe (feed [104, 105, 13]) [104, 105] 13
    (by decide) (by decide) (by decide) (by decide) (by decide)
  exact ⟨h.2.2 (by decide), h.2.1⟩

/-- C2: for every echo mode, when the first `k` reads (`k` at most `maxLength`)
succeed with bytes other than 13, 10 and 3 and the next read returns byte 3,
`getPasswd` returns `ErrInterrupted` together with the buffer accumulated from
those `k` bytes.  Raw mode is assumed not to fail, so that the loop is
reached. -/
theorem getPasswd_interrupted (mode : echoMode) (os : Console)
    (getch : Nat → Nat × Option GoError) (k : Nat)
    (hraw : rawModeFails os = false)
    (hk : k ≤ maxLength)
    (hreads : ∀ i, i < k →
      (getch i).2 = none ∧ (getch i).1 ≠ 13 ∧ (getch i).1 ≠ 10 ∧ (getch i).1 ≠ 3)
    (hnext : getch k = (3, none)) :
    (getPasswd mode os getch).err = some GoError.ErrInterrupted ∧
    (getPasswd mode os getch).pass = accumulated (firstBytes getch k) := by
  have hmain := getPasswd_break mode os getch (firstBytes getch k)
    (some GoError.ErrInterrupted) hraw
    (firstBytes_mem getch k _ (fun i hi => (hreads i hi).2))
    (firstBytes_get getch k (fun i hi => (hreads i hi).1))
    (by rw [firstBytes_length]; exact hk)
    (by
      intro s _
      rw [firstBytes_length, hnext, loopBody_interrupt]
      exact ⟨rfl, rfl, rfl⟩)
  exact ⟨hmain.2, hmain.1⟩

/-- C2, at a concrete input: the bytes 97, 98, 127 and then 3 give
`ErrInterrupted` and the buffer 97. -/
theorem getPasswd_interrupted_witness :
    (getPasswd .echoModeMask console (feed [97, 98, 127, 3])).err =
      some GoError.ErrInterrupted ∧
    (getPasswd .echoModeMask console (feed [97, 98, 127, 3])).pass = [97] := by
  have h := getPasswd_interrupted .echoModeMask console (feed [97, 98, 127, 3]) 3
    (by decide) (by decide) (by decide) (by decide)
  exact ⟨h.1, h.2.trans (by decide)⟩

/-- C3: for every echo mode, when the first `maxLength + 1` (513) reads all
succeed with bytes other than 13, 10 and 3, `getPasswd` returns
`ErrMaxLengthExceeded`.  Raw mode is assumed not to fail, so that the loop is
reached. -/
theorem getPasswd_maxLengthExceeded (mode : echoMode) (os : Console)
    (getch : Nat → Nat × Option GoError)
    (hraw : rawModeFails os = false)
    (hreads : ∀ i, i < 513 →
      (getch i).2 = none ∧ (getch i).1 ≠ 13 ∧ (getch i).1 ≠ 10 ∧ (getch i).1 ≠ 3) :
    (getPasswd mode os getch).err = some GoError.ErrMaxLengthExceeded := by
  obtain ⟨trace, _, he⟩ := getPasswd_loop mode os getch hraw
  have hfull := readLoop_full mode getch trace (firstBytes getch 513)
    (firstBytes_mem getch 513 _ (fun i hi => (hreads i hi).2))
    (firstBytes_get getch 513 (fun i hi => (hreads i hi).1))
    (by rw [firstBytes_length]; rfl)
  rw [he, hfull]

/-- C3, at a concrete input: an endless run of zero bytes gives
`ErrMaxLengthExceeded`. -/
theorem getPasswd_maxLengthExceeded_witness :
    (getPasswd .echoModeEcho pipe (fun _ => (0, none))).err =
      some GoError.ErrMaxLengthExceeded :=
  getPasswd_maxLengthExceeded .echoModeEcho pipe (fun _ => (0, none)) (by decide)
    (fun _ _ => ⟨rfl, by simp, by simp, by simp⟩)

/-- C4, as stated, fails: fed 513 bytes of value 120 and no terminator,
`getPasswd` returns a buffer of 513 bytes, one more than `maxLength`, and not
the 512-byte prefix of the input. -/
theorem getPasswd_length_counterexample :
    (getPasswd .echoModeNone pipe (feed (List.replicate 513 120))).pass.length = 513 ∧
    ¬ (getPasswd .echoModeNone pipe (feed (List.replicate 513 120))).pass.length ≤ maxLength ∧
    (getPasswd .echoModeNone pipe (feed (List.replicate 513 120))).pass ≠
      List.replicate 512 120 := by
  have h := (getPasswd_flood .echoModeNone).1
  rw [h]
  refine ⟨List.length_replicate _ _, ?_, ?_⟩
  · rw [List.length_replicate]; decide
  · intro hne
    have := congrArg List.length hne
    rw [List.length_replicate, List.length_replicate] at this
    exact absurd this (by decide)

/-- C4 (amended): for every echo mode and every byte source the buffer
`getPasswd` returns has at most `maxLength + 1` (513) bytes, and at most
`maxLength` (512) unless the error is `ErrMaxLengthExceeded`; for 513 bytes of
value 120 and no terminator the result is all 513 bytes together with
`ErrMaxLengthExceeded`. -/
theorem getPasswd_length (mode : echoMode) (os : Console)
    (getch : Nat → Nat × Option GoError) :
    ((getPasswd mode os getch).pass.length ≤
      if (getPasswd mode os getch).err = some GoError.ErrMaxLengthExceeded
      then maxLength + 1 else maxLength) ∧
    (getPasswd mode pipe (feed (List.replicate 513 120))).pass = List.replicate 513 120 ∧
    (getPasswd mode pipe (feed (List.replicate 513 120))).err =
      some GoError.ErrMaxLengthExceeded := by
  refine ⟨?_, getPasswd_flood mode⟩
  rcases getPasswd_cases mode os getch with ⟨e, _, h⟩ | ⟨_, _, h⟩ | ⟨_, h⟩
  · rw [h]
    simp only [List.length_nil]
    split_ifs <;> omega
  · rw [h]; exact readLoop_length mode getch _
  · rw [h]; exact readLoop_length mode getch _

/-- C5: for every echo mode and every byte source, finite or endless,
`getPasswd` returns after at most `maxLength + 1` (513) calls of the byte
source; every call counts, whatever it returned: on an endless run of zero
bytes the call makes exactly 513 reads and returns an empty buffer. -/
theorem getPasswd_reads (mode : echoMode) (os : Console)
    (getch : Nat → Nat × Option GoError) :
    reads (getPasswd mode os getch).trace ≤ maxLength + 1 ∧
    reads (getPasswd mode pipe (fun _ => (0, none))).trace = maxLength + 1 ∧
    (getPasswd mode pipe (fun _ => (0, none))).pass = [] := by
  refine ⟨?_, getPasswd_zero_flood mode⟩
  rcases getPasswd_cases mode os getch with ⟨e, _, h⟩ | ⟨oldState, _, h⟩ | ⟨_, h⟩
  · rw [h]; simp [reads]
  · rw [h]
    simp only [reads_append]
    have := readLoop_reads mode getch [Event.makeRaw] (by simp [reads])
    have h2 : reads [Event.restore oldState, Event.write [10]] = 0 := by simp [reads]
    omega
  · rw [h]; exact readLoop_reads mode getch [] (by simp [reads])

/-- C6: for every echo mode, when the first `k` reads (`k` at most `maxLength`)
succeed with bytes other than 13, 10 and 3 and the next read fails with the
error `e`, `getPasswd` returns `e` itself together with the buffer accumulated
from those `k` bytes.  Raw mode is assumed not to fail, so that the loop is
reached. -/
theorem getPasswd_read_error (mode : echoMode) (os : Console)
    (getch : Nat → Nat × Option GoError) (k : Nat) (e : GoError)
    (hraw : rawModeFails os = false)
    (hk : k ≤ maxLength)
    (hreads : ∀ i, i < k →
      (getch i).2 = none ∧ (getch i).1 ≠ 13 ∧ (getch i).1 ≠ 10 ∧ (getch i).1 ≠ 3)
    (hnext : (getch k).2 = some e) :
    (getPasswd mode os getch).err = some e ∧
    (getPasswd mode os getch).pass = accumulated (firstBytes getch k) := by
  have hmain := getPasswd_break mode os getch (firstBytes getch k) (some e) hraw
    (firstBytes_mem getch k _ (fun i hi => (hreads i hi).2))
    (firstBytes_get getch k (fun i hi => (hreads i hi).1))
    (by rw [firstBytes_length]; exact hk)
    (by
      intro s _
      rw [firstBytes_length, loopBody_error mode (getch k) s e hnext]
      exact ⟨rfl, rfl, rfl⟩)
  exact ⟨hmain.2, hmain.1⟩

/-- C6, at a concrete input: the bytes 97, 98 and then end of input give the
error `EOF` and the buffer 97, 98. -/
theorem getPasswd_read_error_witness :
    (getPasswd .echoModeEcho console (feed [97, 98])).err = some GoError.EOF ∧
    (getPasswd .echoModeEcho console (feed [97, 98])).pass = [97, 98] := by
  have h := getPasswd_read_error .echoModeEcho console (feed [97, 98]) 2 GoError.EOF
    (by decide) (by decide) (by decide) (by decide)
  exact ⟨h.1, h.2.trans (by decide)⟩

/-- C7: for every echo mode and every state of the loop, an iteration that
reads byte 127 or 8 goes on with the loop and, on an empty buffer, leaves it
empty and writes no byte; on a non-empty buffer it removes exactly the last
byte and writes exactly the erase sequence 8, 32, 8 under the mask and echo
modes and no byte under the hidden mode. -/
theorem loopBody_backspace (mode : echoMode) (s : LoopState) (v : Nat)
    (hv : v = 127 ∨ v = 8) :
    (loopBody mode (v, none) s).2 = false ∧
    (s.pass = [] →
      (loopBody mode (v, none) s).1.pass = [] ∧
      display (loopBody mode (v, none) s).1.trace = display s.trace) ∧
    (s.pass ≠ [] →
      (∃ last, s.pass = (loopBody mode (v, none) s).1.pass ++ [last]) ∧
      display (loopBody mode (v, none) s).1.trace =
        display s.trace ++ (if mode = .echoModeNone then [] else [8, 32, 8])) := by
  have hbody : loopBody mode (v, none) s =
      if s.pass.length > 0 then
        ({ s with pass := s.pass.take (s.pass.length - 1),
                  trace := s.trace ++ [Event.getch] ++ [Event.write (bs mode)] }, false)
      else ({ s with trace := s.trace ++ [Event.getch] }, false) := by
    unfold loopBody
    simp only [hv, if_true]
  rw [hbody]
  refine ⟨by split_ifs <;> rfl, ?_, ?_⟩
  · intro hnil
    simp [hnil, display_append, display]
  · intro hne
    have hpos : s.pass.length > 0 := List.length_pos.mpr hne
    simp only [hpos, if_true]
    refine ⟨⟨s.pass.getLast hne, ?_⟩, ?_⟩
    · rw [← List.dropLast_eq_take]
      exact (List.dropLast_append_getLast hne).symm
    · cases mode <;> simp [display_append, display, bs]

/-- C7, at concrete states: under the mask mode a backspace on the buffer
97, 98 leaves 97 and writes the erase sequence; on the empty buffer it leaves
the buffer empty and writes nothing. -/
theorem loopBody_backspace_witness :
    ((loopBody .echoModeMask (127, none)
        { pass := [97, 98], err := none, counter := 2, trace := [] }).1.pass = [97] ∧
      display (loopBody .echoModeMask (127, none)
        { pass := [97, 98], err := none, counter := 2, trace := [] }).1.trace = [8, 32, 8]) ∧
    ((loopBody .echoModeMask (8, none)
        { pass := [], err := none, counter := 0, trace := [] }).1.pass = [] ∧
      display (loopBody .echoModeMask (8, none)
        { pass := [], err := none, counter := 0, trace := [] }).1.trace = []) := by
  have h1 := (loopBody_backspace .echoModeMask
    { pass := [97, 98], err := none, counter := 2, trace := [] } 127 (Or.inl rfl)).2.2
    (by decide)
  have h2 := (loopBody_backspace .echoModeMask
    { pass := [], err := none, counter := 0, trace := [] } 8 (Or.inr rfl)).2.1 rfl
  exact ⟨⟨by decide, h1.2.trans (by decide)⟩, h2.1, h2.2.trans (by decide)⟩

/-- C8: for every echo mode and every byte source, the buffer `getPasswd`
returns (and so the one `GetPasswd`, `GetPasswdMasked` and `GetPasswdEchoed`
return) holds no end-of-line byte 13 or 10 and none of the other bytes the
loop interprets: 0, 3, 8, 127. -/
theorem getPasswd_no_control_bytes (mode : echoMode) (os : Console)
    (getch : Nat → Nat × Option GoError) :
    ∀ b ∈ (getPasswd mode os getch).pass,
      b ≠ 13 ∧ b ≠ 10 ∧ b ≠ 0 ∧ b ≠ 3 ∧ b ≠ 8 ∧ b ≠ 127 := by
  have hP : ∀ v, v ≠ 127 → v ≠ 8 → v ≠ 13 → v ≠ 10 → v ≠ 3 → v ≠ 0 →
      v ≠ 13 ∧ v ≠ 10 ∧ v ≠ 0 ∧ v ≠ 3 ∧ v ≠ 8 ∧ v ≠ 127 :=
    fun v h127 h8 h13 h10 h3 h0 => ⟨h13, h10, h0, h3, h8, h127⟩
  rcases getPasswd_cases mode os getch with ⟨e, _, h⟩ | ⟨_, _, h⟩ | ⟨_, h⟩
  · rw [h]; intro b hb; cases hb
  · rw [h]; exact readLoop_clean mode getch _ _ hP
  · rw [h]; exact readLoop_clean mode getch _ _ hP

/-- C8, at a concrete input: the bytes 97, 0, 98, 8, 99, 13 give the buffer
97, 99, whose byte 99 is none of the interpreted bytes. -/
theorem getPasswd_no_control_bytes_witness :
    99 ∈ (getPasswd .echoModeMask console (feed [97, 0, 98, 8, 99, 13])).pass ∧
    ((99 : Nat) ≠ 13 ∧ (99 : Nat) ≠ 10 ∧ (99 : Nat) ≠ 0 ∧ (99 : Nat) ≠ 3 ∧
      (99 : Nat) ≠ 8 ∧ (99 : Nat) ≠ 127) :=
  ⟨by decide,
    getPasswd_no_control_bytes .echoModeMask console (feed [97, 0, 98, 8, 99, 13]) 99
      (by decide)⟩

/-- C10: under the hidden mode, for every byte source, the loop writes no byte
to the display: either the whole call writes none, or its trace is that of the
loop, which writes none, followed by the deferred restore and its newline. -/
theorem GetPasswd_writes_nothing (os : Console) (getch : Nat → Nat × Option GoError) :
    display (GetPasswd os getch).trace = [] ∨
    ∃ loopTrace oldState,
      (GetPasswd os getch).trace =
        loopTrace ++ [Event.restore oldState, Event.write [10]] ∧
      display loopTrace = [] := by
  unfold GetPasswd
  rcases getPasswd_cases .echoModeNone os getch with ⟨e, _, h⟩ | ⟨oldState, _, h⟩ | ⟨_, h⟩
  · left; rw [h]; rfl
  · right
    refine ⟨(readLoop .echoModeNone getch [Event.makeRaw]).trace, oldState, by rw [h], ?_⟩
    rw [readLoop_hidden]; rfl
  · left; rw [h]
    simp only [readLoop_hidden]; rfl

/-- C9: for every echo mode, when the byte source delivers the reads `input`,
one of whose first `maxLength + 1` (513) stops the loop (a terminator, the
interrupt byte or a read error), a byte source that delivers `input` with all
its 0 bytes deleted gives the same returned buffer, the same error and the
same bytes on the display; an iteration that reads a 0 byte leaves the buffer
as it is and writes nothing. -/
theorem getPasswd_zeros_transparent (mode : echoMode) (os : Console)
    (getch getch0 : Nat → Nat × Option GoError) (input : List (Nat × Option GoError))
    (hget : ∀ i (h : i < input.length), getch i = input[i])
    (hget0 : ∀ i (h : i < (dropZeros input).length), getch0 i = (dropZeros input)[i])
    (hstop : ∃ i, i < maxLength + 1 ∧ ∃ h : i < input.length, stops input[i] = true) :
    (getPasswd mode os getch0).pass = (getPasswd mode os getch).pass ∧
    (getPasswd mode os getch0).err = (getPasswd mode os getch).err ∧
    display (getPasswd mode os getch0).trace = display (getPasswd mode os getch).trace ∧
    (∀ s : LoopState,
      (loopBody mode (0, none) s).1.pass = s.pass ∧
      display (loopBody mode (0, none) s).1.trace = display s.trace) := by
  have hzero : ∀ s : LoopState,
      (loopBody mode (0, none) s).1.pass = s.pass ∧
      display (loopBody mode (0, none) s).1.trace = display s.trace :=
    fun s => ⟨(loopBody_zero mode s).1, (loopBody_zero mode s).2.2⟩
  rcases getPasswd_shape mode os with ⟨e, h⟩ | ⟨oldState, h⟩ | h
  · rw [h getch, h getch0]
    exact ⟨rfl, rfl, rfl, hzero⟩
  · obtain ⟨hp, he, hd⟩ :=
      readLoop_dropZeros mode getch getch0 [Event.makeRaw] input hget hget0 hstop
    rw [h getch, h getch0]
    simp only [display_append]
    exact ⟨hp.symm, he.symm, by rw [hd], hzero⟩
  · obtain ⟨hp, he, hd⟩ := readLoop_dropZeros mode getch getch0 [] input hget hget0 hstop
    rw [h getch, h getch0]
    exact ⟨hp.symm, he.symm, hd.symm, hzero⟩

/-- C9, at a concrete input: under the echo mode the bytes 97, 0, 98, 0, 13 and
the bytes 97, 98, 13 give the same buffer, error and display. -/
theorem getPasswd_zeros_transparent_witness :
    (getPasswd .echoModeEcho console (feed [97, 98, 13])).pass =
      (getPasswd .echoModeEcho console (feed [97, 0, 98, 0, 13])).pass ∧
    (getPasswd .echoModeEcho console (feed [97, 98, 13])).err =
      (getPasswd .echoModeEcho console (feed [97, 0, 98, 0, 13])).err ∧
    display (getPasswd .echoModeEcho console (feed [97, 98, 13])).trace =
      display (getPasswd .echoModeEcho console (feed [97, 0, 98, 0, 13])).trace := by
  have h := getPasswd_zeros_transparent .echoModeEcho console
    (feed [97, 0, 98, 0, 13]) (feed [97, 98, 13])
    [(97, none), (0, none), (98, none), (0, none), (13, none)]
    (by decide) (by decide) ⟨4, by decide, by decide, by decide⟩
  exact ⟨h.1, h.2.1, h.2.2.1⟩

/-! ## Raw mode: entering and leaving -/

/-- The call when raw mode is entered: the loop, then the deferred restore and
newline. -/
theorem getPasswd_raw (mode : echoMode) (os : Console)
    (getch : Nat → Nat × Option GoError) (oldState : terminalState)
    (hterm : isTerminal os = true) (hraw : (makeRaw os).1 = .ok oldState) :
    getPasswd mode os getch =
      { pass := (readLoop mode getch [Event.makeRaw]).pass,
        err := (readLoop mode getch [Event.makeRaw]).err,
        trace := (readLoop mode getch [Event.makeRaw]).trace ++
          [Event.restore oldState, Event.write [10]] } := by
  unfold getPasswd
  simp [hterm, hraw]

/-- The call when entering raw mode fails. -/
theorem getPasswd_raw_fails (mode : echoMode) (os : Console)
    (getch : Nat → Nat × Option GoError) (e : GoError)
    (hterm : isTerminal os = true) (hraw : (makeRaw os).1 = .error e) :
    getPasswd mode os getch = { pass := [], err := some e, trace := [Event.makeRaw] } := by
  unfold getPasswd
  simp [hterm, hraw]

/-- Entering raw mode: on a native console the handle holds the native state
and an empty `sttyState`; otherwise it holds no native state and the trimmed
output of `stty --save`, and `stty` was called with `--save` and then with the
raw flags. -/
theorem makeRaw_ok (os : Console) (oldState : terminalState)
    (hraw : (makeRaw os).1 = .ok oldState) :
    (os.IsTerminal = true ∧ (∃ state, os.MakeRaw = .ok state ∧ oldState.state = some state) ∧
      oldState.sttyState = "" ∧ (makeRaw os).2 = []) ∨
    (os.IsTerminal = false ∧ oldState.state = none ∧
      (stty os ["--save"]).2 = none ∧
      oldState.sttyState = TrimSpace (stty os ["--save"]).1 ∧
      (makeRaw os).2 = [["--save"], rawFlags]) := by
  unfold makeRaw at hraw ⊢
  cases hterm : os.IsTerminal
  · right
    simp only [hterm, Bool.false_eq_true, if_false] at hraw ⊢
    rcases hsave : stty os ["--save"] with ⟨stateBytes, _ | e⟩
    · rw [hsave] at hraw
      simp only at hraw ⊢
      rcases hflags : stty os rawFlags with ⟨out, _ | e⟩
      · rw [hflags] at hraw
        simp only at hraw
        cases hraw
        refine ⟨trivial, ?_, ?_, ?_, ?_⟩ <;> first | rfl | trivial
      · rw [hflags] at hraw
        simp only at hraw
        cases hraw
    · rw [hsave] at hraw
      simp only at hraw
      cases hraw
  · left
    simp only [hterm, if_true] at hraw ⊢
    rcases hmk : os.MakeRaw with e | state
    · rw [hmk] at hraw
      simp only at hraw
      cases hraw
    · rw [hmk] at hraw
      simp only at hraw
      cases hraw
      refine ⟨trivial, ⟨state, ?_, ?_⟩, ?_, ?_⟩ <;> rfl

theorem rawModeFails_of_ok (os : Console) (oldState : terminalState)
    (hraw : (makeRaw os).1 = .ok oldState) : rawModeFails os = false := by
  unfold rawModeFails
  rw [hraw]
  simp

/-- What one iteration adds to the trace: its `getch` call and at most one
write, never of a newline. -/
theorem loopBody_trace (mode : echoMode) (r : Nat × Option GoError) (s : LoopState) :
    ∃ l, (loopBody mode r s).1.trace = s.trace ++ l ∧ ∀ e ∈ l, isLoopEvent e := by
  have h1 : ∃ l, s.trace ++ [Event.getch] = s.trace ++ l ∧ ∀ e ∈ l, isLoopEvent e :=
    ⟨[Event.getch], rfl, by
      intro e he
      rw [List.mem_singleton.mp he]
      exact Or.inl rfl⟩
  have h2 : ∀ bytes : List Nat, 10 ∉ bytes →
      ∃ l, s.trace ++ [Event.getch] ++ [Event.write bytes] = s.trace ++ l ∧
        ∀ e ∈ l, isLoopEvent e := by
    intro bytes hb
    refine ⟨[Event.getch, Event.write bytes], by simp, ?_⟩
    intro e he
    rcases List.mem_cons.mp he with he | he
    · exact Or.inl he
    · rw [List.mem_singleton.mp he]
      exact Or.inr ⟨bytes, rfl, hb⟩
  have hbs : 10 ∉ bs mode := by
    unfold bs
    split_ifs <;> simp
  have hmask : 10 ∉ mask mode := by
    unfold mask
    split_ifs <;> simp
  have hbyte : ∀ v : Nat, v ≠ 10 → 10 ∉ byteString v := by
    intro v hv
    unfold byteString
    split_ifs
    · simpa using hv.symm
    · simp only [List.mem_cons, List.mem_singleton, List.not_mem_nil, or_false, not_or]
      omega
  unfold loopBody
  rcases r with ⟨v, _ | e⟩
  · simp only
    split_ifs with hb hp ht hi h0 hm he
    · exact h2 _ hbs
    · exact h1
    · exact h1
    · exact h1
    · exact h2 _ hmask
    · exact h2 _ (hbyte v (fun h => ht (Or.inr h)))
    · exact h1
    · exact h1
  · exact h1

/-- The events of the loop follow the trace the loop starts with. -/
theorem readLoop_trace (mode : echoMode) (getch : Nat → Nat × Option GoError)
    (trace : List Event) :
    ∃ l, (readLoop mode getch trace).trace = trace ++ l ∧ ∀ e ∈ l, isLoopEvent e := by
  have h : ∃ l, (forLoop mode getch (maxLength + 1)
      { pass := [], err := none, counter := 0, trace := trace }).trace = trace ++ l ∧
      ∀ e ∈ l, isLoopEvent e := by
    apply forLoop_rule mode getch
      (fun s => ∃ l, s.trace = trace ++ l ∧ ∀ e ∈ l, isLoopEvent e)
      (fun s => ∃ l, s.trace = trace ++ l ∧ ∀ e ∈ l, isLoopEvent e)
    · intro s h _; exact h
    · intro s s1 h hc hb
      obtain ⟨l, hl, hev⟩ := h
      obtain ⟨l1, hl1, hev1⟩ := loopBody_trace mode (getch s.counter) s
      rw [hb] at hl1
      refine ⟨l ++ l1, by rw [hl1, hl, List.append_assoc], ?_⟩
      intro e he
      rcases List.mem_append.mp he with he | he
      · exact hev e he
      · exact hev1 e he
    · intro s s1 h hc hb
      obtain ⟨l, hl, hev⟩ := h
      obtain ⟨l1, hl1, hev1⟩ := loopBody_trace mode (getch s.counter) s
      rw [hb] at hl1
      refine ⟨l ++ l1, by simp only; rw [hl1, hl, List.append_assoc], ?_⟩
      intro e he
      rcases List.mem_append.mp he with he | he
      · exact hev e he
      · exact hev1 e he
    · exact ⟨[], by simp, by simp⟩
    · simp
  unfold readLoop
  simp only
  split_ifs <;> exact h

theorem count_loopEvents (l : List Event) (hl : ∀ e ∈ l, isLoopEvent e) :
    l.count Event.makeRaw = 0 ∧ ∀ oldState, l.count (Event.restore oldState) = 0 := by
  refine ⟨List.count_eq_zero.mpr ?_, fun oldState => List.count_eq_zero.mpr ?_⟩
  · intro hmem
    rcases hl _ hmem with h | ⟨_, h, _⟩ <;> cases h
  · intro hmem
    rcases hl _ hmem with h | ⟨_, h, _⟩ <;> cases h

/-! ## The claims on raw mode -/

/-- C13: raw mode is entered at most once per call, and whenever standard input
is a terminal and `makeRaw` succeeds with the handle `oldState`, the trace of
the call is: `makeRaw`, then the events of the loop (its `getch` calls and its
writes, none of a newline), then exactly one `restore` with `oldState`, then
exactly one newline, however the loop ended. -/
theorem getPasswd_restores_once (mode : echoMode) (os : Console)
    (getch : Nat → Nat × Option GoError) :
    (getPasswd mode os getch).trace.count Event.makeRaw ≤ 1 ∧
    ∀ oldState, isTerminal os = true → (makeRaw os).1 = .ok oldState →
      ∃ loopTrace,
        (getPasswd mode os getch).trace =
          Event.makeRaw :: loopTrace ++ [Event.restore oldState, Event.write [10]] ∧
        (∀ e ∈ loopTrace, isLoopEvent e) ∧
        (getPasswd mode os getch).trace.count (Event.restore oldState) = 1 ∧
        (∀ h, Event.restore h ∈ (getPasswd mode os getch).trace → h = oldState) := by
  constructor
  · rcases getPasswd_cases mode os getch with ⟨e, _, h⟩ | ⟨oldState, _, h⟩ | ⟨_, h⟩
    · rw [h]; simp
    · obtain ⟨l, hl, hev⟩ := readLoop_trace mode getch [Event.makeRaw]
      rw [h]
      simp only [hl, List.count_append, (count_loopEvents l hev).1]
      simp
    · obtain ⟨l, hl, hev⟩ := readLoop_trace mode getch []
      rw [h]
      simp only [hl, List.nil_append, (count_loopEvents l hev).1]
      omega
  · intro oldState hterm hraw
    obtain ⟨l, hl, hev⟩ := readLoop_trace mode getch [Event.makeRaw]
    rw [getPasswd_raw mode os getch oldState hterm hraw]
    simp only [hl]
    refine ⟨l, by simp, hev, ?_, ?_⟩
    · simp only [List.count_append, (count_loopEvents l hev).2]
      simp
    · intro h hmem
      simp only [List.mem_append, List.mem_cons, List.mem_singleton, List.not_mem_nil,
        or_false] at hmem
      rcases hmem with (hmem | hmem) | hmem | hmem
      · cases hmem
      · rcases hev _ hmem with h1 | ⟨_, h1, _⟩ <;> cases h1
      · cases hmem; rfl
      · cases hmem

/-- C13, at a concrete call: on a native console, under the echo mode, the bytes
97, 3 give the trace `makeRaw`, read, echo, read, `restore`, newline. -/
theorem getPasswd_restores_once_witness :
    (getPasswd .echoModeEcho console (feed [97, 3])).trace =
      [Event.makeRaw, Event.getch, Event.write [97], Event.getch,
        Event.restore { state := some 7, sttyState := "" }, Event.write [10]] ∧
    (getPasswd .echoModeEcho console (feed [97, 3])).trace.count
      (Event.restore { state := some 7, sttyState := "" }) = 1 := by
  obtain ⟨_, _, _, h, _⟩ := (getPasswd_restores_once .echoModeEcho console (feed [97, 3])).2
    { state := some 7, sttyState := "" } (by decide) (by rfl)
  exact ⟨by decide, h⟩

/-- C14, as stated, fails: on a native console whose restore fails, after the
bytes 104, 105, 13, raw mode was entered, the loop ended without error and
`restore` returns an error, yet `getPasswd` returns a nil error. -/
theorem getPasswd_restore_error_counterexample :
    isTerminal brokenRestore = true ∧
    rawModeFails brokenRestore = false ∧
    (restore brokenRestore { state := some 7, sttyState := "" }).1 = some (GoError.other 2) ∧
    Event.restore { state := some 7, sttyState := "" } ∈
      (getPasswd .echoModeNone brokenRestore (feed [104, 105, 13])).trace ∧
    (getPasswd .echoModeNone brokenRestore (feed [104, 105, 13])).err = none := by
  decide

/-- C14 (amended): a failure of the restore step is dropped: if raw mode was
entered, the loop ended without error and `restore` fails with the error `e`,
then `getPasswd` has called `restore` and returns a nil error, not `e`. -/
theorem getPasswd_restore_error_dropped (mode : echoMode) (os : Console)
    (getch : Nat → Nat × Option GoError) (oldState : terminalState) (e : GoError)
    (hterm : isTerminal os = true) (hraw : (makeRaw os).1 = .ok oldState)
    (hloop : (readLoop mode getch [Event.makeRaw]).err = none)
    (_hrestore : (restore os oldState).1 = some e) :
    (getPasswd mode os getch).err = none ∧
    (getPasswd mode os getch).err ≠ some e ∧
    Event.restore oldState ∈ (getPasswd mode os getch).trace := by
  rw [getPasswd_raw mode os getch oldState hterm hraw]
  refine ⟨hloop, ?_, ?_⟩
  · simp only [hloop]
    exact fun h => Option.noConfusion h
  · simp

/-- C14, at a concrete call: the failing restore of `brokenRestore` after the
bytes 104, 105, 13 leaves the returned error nil. -/
theorem getPasswd_restore_error_dropped_witness :
    (getPasswd .echoModeMask brokenRestore (feed [104, 105, 13])).err = none ∧
    (getPasswd .echoModeMask brokenRestore (feed [104, 105, 13])).err ≠
      some (GoError.other 2) :=
  have h := getPasswd_restore_error_dropped .echoModeMask brokenRestore (feed [104, 105, 13])
    { state := some 7, sttyState := "" } (GoError.other 2)
    (by decide) (by rfl) (by decide) (by decide)
  ⟨h.1, h.2.1⟩

/-- C15: if standard input is a terminal and entering raw mode fails with the
error `e`, `getPasswd` returns `e` with an empty buffer; its trace is the
`makeRaw` call alone: no byte is read, `restore` is not called and nothing is
written. -/
theorem getPasswd_makeRaw_error (mode : echoMode) (os : Console)
    (getch : Nat → Nat × Option GoError) (e : GoError)
    (hterm : isTerminal os = true) (hraw : (makeRaw os).1 = .error e) :
    (getPasswd mode os getch).err = some e ∧
    (getPasswd mode os getch).pass = [] ∧
    (getPasswd mode os getch).trace = [Event.makeRaw] ∧
    reads (getPasswd mode os getch).trace = 0 ∧
    (∀ oldState, Event.restore oldState ∉ (getPasswd mode os getch).trace) ∧
    display (getPasswd mode os getch).trace = [] ∧
    (∀ bytes, Event.write bytes ∉ (getPasswd mode os getch).trace) := by
  rw [getPasswd_raw_fails mode os getch e hterm hraw]
  refine ⟨rfl, rfl, rfl, by simp [reads], ?_, rfl, ?_⟩
  · intro oldState; simp
  · intro bytes; simp

/-- C15, at a concrete call: on a console whose raw mode cannot be entered the
error of `MakeRaw` comes back and the bytes 104, 105, 13 are not read. -/
theorem getPasswd_makeRaw_error_witness :
    (getPasswd .echoModeEcho noRaw (feed [104, 105, 13])).err = some (GoError.other 3) ∧
    (getPasswd .echoModeEcho noRaw (feed [104, 105, 13])).pass = [] ∧
    (getPasswd .echoModeEcho noRaw (feed [104, 105, 13])).trace = [Event.makeRaw] := by
  have h := getPasswd_makeRaw_error .echoModeEcho noRaw (feed [104, 105, 13])
    (GoError.other 3) (by decide) (by rfl)
  exact ⟨h.1, h.2.1, h.2.2.1⟩

/-- C16, as stated, fails: when `stty --save` succeeds and prints nothing,
`makeRaw` returns without error a handle with neither variant populated: a nil
`state` and an empty `sttyState`. -/
theorem makeRaw_blank_counterexample :
    (makeRaw blankStty).1 = .ok { state := none, sttyState := "" } ∧
    ¬ ∃ oldState, (makeRaw blankStty).1 = .ok oldState ∧
      (oldState.state ≠ none ∨ oldState.sttyState ≠ "") := by
  refine ⟨rfl, ?_⟩
  rintro ⟨oldState, hok, h⟩
  have : oldState = { state := none, sttyState := "" } := by
    have h1 : (makeRaw blankStty).1 = .ok { state := none, sttyState := "" } := rfl
    rw [h1] at hok
    cases hok
    rfl
  subst this
  rcases h with h | h <;> exact h rfl

/-- C16 (amended): a handle that `makeRaw` returns without error never has both
variants populated: on a native console `state` is non-nil and `sttyState` is
the empty string; otherwise `state` is nil and `sttyState` is the trimmed output
of `stty --save`, so that it is populated exactly when that output is not
blank. -/
theorem makeRaw_variants (os : Console) (oldState : terminalState)
    (hraw : (makeRaw os).1 = .ok oldState) :
    ¬ (oldState.state ≠ none ∧ oldState.sttyState ≠ "") ∧
    ((os.IsTerminal = true ∧ oldState.state ≠ none ∧ oldState.sttyState = "") ∨
     (os.IsTerminal = false ∧ oldState.state = none ∧
      oldState.sttyState = TrimSpace (stty os ["--save"]).1)) := by
  rcases makeRaw_ok os oldState hraw with ⟨ht, ⟨state, _, hs⟩, he, _⟩ | ⟨ht, hs, _, he, _⟩
  · refine ⟨fun h => h.2 he, Or.inl ⟨ht, ?_, he⟩⟩
    rw [hs]
    exact fun h => Option.noConfusion h
  · exact ⟨fun h => h.1 hs, Or.inr ⟨ht, hs, he⟩⟩

/-- C16, at a concrete console: the handle of the POSIX terminal holds no
native state and the settings that `stty --save` printed, so not both. -/
theorem makeRaw_variants_witness :
    (makeRaw posix).1 = .ok { state := none, sttyState := "500:5:bf" } ∧
    ¬ ((none : Option Nat) ≠ none ∧ "500:5:bf" ≠ "") ∧
    "500:5:bf" = TrimSpace (stty posix ["--save"]).1 :=
  have h := makeRaw_variants posix { state := none, sttyState := "500:5:bf" } rfl
  ⟨rfl, h.1, by decide⟩

/-- C17: for every echo mode and every sequence `p` of at most `maxLength`
(512) bytes none of which is 0, 3, 8, 10, 13 or 127, a byte source that
delivers `p` and then a terminator 13 or 10 makes `getPasswd` return exactly
`p` with a nil error, also when `p` has 512 bytes and the terminator is the
513th byte read.  Raw mode is assumed not to fail, so that the loop is
reached. -/
theorem getPasswd_accepts_maxLength (mode : echoMode) (os : Console)
    (getch : Nat → Nat × Option GoError) (p : List Nat) (t : Nat)
    (hraw : rawModeFails os = false)
    (ht : t = 13 ∨ t = 10)
    (hlen : p.length ≤ maxLength)
    (hplain : ∀ v ∈ p, v ≠ 0 ∧ v ≠ 3 ∧ v ≠ 8 ∧ v ≠ 10 ∧ v ≠ 13 ∧ v ≠ 127)
    (hfeed : ∀ i (h : i < (p ++ [t]).length), getch i = ((p ++ [t])[i], none)) :
    (getPasswd mode os getch).pass = p ∧ (getPasswd mode os getch).err = none := by
  have hget : ∀ i (h : i < p.length), getch i = (p[i], none) := by
    intro i h
    have := hfeed i (by simp; omega)
    rwa [List.getElem_append_left h] at this
  have hterm : getch p.length = (t, none) := by
    have := hfeed p.length (by simp)
    simpa using this
  have hmain := getPasswd_break mode os getch p none hraw
    (fun v hv => ⟨(hplain v hv).2.2.2.2.1, (hplain v hv).2.2.2.1, (hplain v hv).2.1⟩)
    hget hlen
    (by
      intro s hs
      rw [hterm, loopBody_enter _ t s ht]
      exact ⟨rfl, rfl, hs⟩)
  refine ⟨?_, hmain.2⟩
  rw [hmain.1]
  unfold accumulated
  rw [foldl_edit_plain p []
    (fun v hv => ⟨(hplain v hv).1, (hplain v hv).2.2.1, (hplain v hv).2.2.2.2.2⟩)]
  exact List.nil_append _

/-- C17, at the boundary: 512 bytes of value 97 followed by the terminator 13
as the 513th byte come back whole with a nil error. -/
theorem getPasswd_accepts_maxLength_witness :
    (getPasswd .echoModeMask console (feed (List.replicate 512 97 ++ [13]))).pass =
      List.replicate 512 97 ∧
    (getPasswd .echoModeMask console (feed (List.replicate 512 97 ++ [13]))).err = none :=
  getPasswd_accepts_maxLength .echoModeMask console (feed (List.replicate 512 97 ++ [13]))
    (List.replicate 512 97) 13 (by decide) (Or.inl rfl)
    (by rw [List.length_replicate]; decide)
    (by intro v hv; rw [List.eq_of_mem_replicate hv]; decide)
    (by
      intro i h
      unfold feed
      rw [List.getElem?_eq_getElem h])

/-- C18: whenever raw mode was entered and the loop ends with a non-nil error
`e`, `getPasswd` returns `e` and the same buffer whether `restore` succeeds,
as on the console `os`, or fails, as on the console `os1`. -/
theorem getPasswd_restore_keeps_error (mode : echoMode) (os os1 : Console)
    (getch : Nat → Nat × Option GoError) (oldState oldState1 : terminalState)
    (e e1 : GoError)
    (hterm : isTerminal os = true) (hraw : (makeRaw os).1 = .ok oldState)
    (hterm1 : isTerminal os1 = true) (hraw1 : (makeRaw os1).1 = .ok oldState1)
    (_hrestore : (restore os oldState).1 = none)
    (_hrestore1 : (restore os1 oldState1).1 = some e1)
    (hloop : (readLoop mode getch [Event.makeRaw]).err = some e) :
    (getPasswd mode os getch).err = some e ∧
    (getPasswd mode os1 getch).err = some e ∧
    (getPasswd mode os1 getch).pass = (getPasswd mode os getch).pass := by
  rw [getPasswd_raw mode os getch oldState hterm hraw,
    getPasswd_raw mode os1 getch oldState1 hterm1 hraw1]
  exact ⟨hloop, hloop, rfl⟩

/-- C18, at a concrete call: the bytes 97, 3 give `ErrInterrupted` and the
buffer 97 on the console whose restore succeeds and on the one whose restore
fails. -/
theorem getPasswd_restore_keeps_error_witness :
    (getPasswd .echoModeEcho console (feed [97, 3])).err = some GoError.ErrInterrupted ∧
    (getPasswd .echoModeEcho brokenRestore (feed [97, 3])).err =
      some GoError.ErrInterrupted ∧
    (getPasswd .echoModeEcho brokenRestore (feed [97, 3])).pass =
      (getPasswd .echoModeEcho console (feed [97, 3])).pass :=
  getPasswd_restore_keeps_error .echoModeEcho console brokenRestore (feed [97, 3])
    { state := some 7, sttyState := "" } { state := some 7, sttyState := "" }
    GoError.ErrInterrupted (GoError.other 2)
    (by decide) rfl (by decide) rfl (by decide) (by decide) (by decide)

/-- C19: for a descriptor that is no native console, when `makeRaw` succeeds it
has called `stty` first with the single argument `--save` and then with the
raw flags, the `sttyState` of the handle is the trimmed output of the `--save`
call, and `restore` with that handle calls `stty` once, with that `sttyState`
as its only argument; when the `--save` call fails, `makeRaw` returns its
error and has made no other `stty` call. -/
theorem makeRaw_stty_calls (os : Console) (hnative : os.IsTerminal = false) :
    (∀ oldState, (makeRaw os).1 = .ok oldState →
      (makeRaw os).2 = [["--save"], rawFlags] ∧
      oldState.sttyState = TrimSpace (stty os ["--save"]).1 ∧
      (restore os oldState).2 = [[oldState.sttyState]] ∧
      (restore os oldState).1 = (stty os [oldState.sttyState]).2) ∧
    (∀ e, (stty os ["--save"]).2 = some e →
      (makeRaw os).1 = .error e ∧ (makeRaw os).2 = [["--save"]]) := by
  constructor
  · intro oldState hraw
    rcases makeRaw_ok os oldState hraw with ⟨ht, _⟩ | ⟨_, hs, _, he, hcalls⟩
    · rw [hnative] at ht; cases ht
    · refine ⟨hcalls, he, ?_, ?_⟩
      · unfold restore; rw [hs]
      · unfold restore; rw [hs]
  · intro e hsave
    unfold makeRaw
    simp only [hnative, Bool.false_eq_true, if_false]
    rcases hst : stty os ["--save"] with ⟨stateBytes, _ | e1⟩
    · rw [hst] at hsave; cases hsave
    · rw [hst] at hsave
      cases hsave
      exact ⟨rfl, rfl⟩

/-- C19, at concrete consoles: on the POSIX terminal `makeRaw` calls `stty`
with `--save` and with the raw flags, keeps the settings printed, without the
newline, and `restore` calls `stty` with them; on the pipe, where `stty --save`
fails, only that call is made. -/
theorem makeRaw_stty_calls_witness :
    ((makeRaw posix).2 = [["--save"], rawFlags] ∧
      (restore posix { state := none, sttyState := "500:5:bf" }).2 = [["500:5:bf"]]) ∧
    (makeRaw pipe).2 = [["--save"]] := by
  have h := (makeRaw_stty_calls posix rfl).1 { state := none, sttyState := "500:5:bf" } rfl
  have h1 := (makeRaw_stty_calls pipe rfl).2 (GoError.other 1) rfl
  exact ⟨⟨h.1, h.2.2.1⟩, h1.2⟩
/-! ## Two runs of the loop side by side -/

/-- Two loops, possibly under different modes and on different byte sources,
stay related by `R` when every pair of iterations keeps `R` and agrees on
leaving the loop. -/
theorem forLoop_pair (mode mode0 : echoMode) (getch getch0 : Nat → Nat × Option GoError)
    (R : LoopState → LoopState → Prop)
    (hcounter : ∀ s t, R s t → s.counter = t.counter)
    (hbody : ∀ s t, R s t → s.counter ≤ maxLength →
      (loopBody mode (getch s.counter) s).2 = (loopBody mode0 (getch0 t.counter) t).2 ∧
      R (loopBody mode (getch s.counter) s).1 (loopBody mode0 (getch0 t.counter) t).1)
    (hnext : ∀ s t, R s t →
      R { s with counter := s.counter + 1 } { t with counter := t.counter + 1 }) :
    ∀ (fuel : Nat) (s t : LoopState), R s t →
      R (forLoop mode getch fuel s) (forLoop mode0 getch0 fuel t) := by
  intro fuel
  induction fuel with
  | zero => intro s t h; exact h
  | succ n ih =>
    intro s t h
    have hc := hcounter s t h
    by_cases hle : s.counter ≤ maxLength
    · have hle0 : t.counter ≤ maxLength := hc ▸ hle
      obtain ⟨hflag, hR⟩ := hbody s t h hle
      simp only [forLoop, hle, hle0, if_true]
      rcases hb : loopBody mode (getch s.counter) s with ⟨s1, b⟩
      rcases hb0 : loopBody mode0 (getch0 t.counter) t with ⟨t1, b0⟩
      rw [hb, hb0] at hflag hR
      simp only at hflag hR
      subst hflag
      cases b
      · exact ih _ _ (hnext s1 t1 hR)
      · exact hR
    · have hle0 : ¬ t.counter ≤ maxLength := hc ▸ hle
      simp only [forLoop, hle, hle0, if_false]
      exact h

theorem readLoop_pair (mode mode0 : echoMode) (getch getch0 : Nat → Nat × Option GoError)
    (trace : List Event) (R : LoopState → LoopState → Prop)
    (hcounter : ∀ s t, R s t → s.counter = t.counter)
    (hbody : ∀ s t, R s t → s.counter ≤ maxLength →
      (loopBody mode (getch s.counter) s).2 = (loopBody mode0 (getch0 t.counter) t).2 ∧
      R (loopBody mode (getch s.counter) s).1 (loopBody mode0 (getch0 t.counter) t).1)
    (hnext : ∀ s t, R s t →
      R { s with counter := s.counter + 1 } { t with counter := t.counter + 1 })
    (herr : ∀ s t e, R s t → R { s with err := e } { t with err := e })
    (hstart : R { pass := [], err := none, counter := 0, trace := trace }
      { pass := [], err := none, counter := 0, trace := trace }) :
    R (readLoop mode getch trace) (readLoop mode0 getch0 trace) := by
  have h := forLoop_pair mode mode0 getch getch0 R hcounter hbody hnext (maxLength + 1) _ _ hstart
  have hc := hcounter _ _ h
  unfold readLoop
  simp only
  by_cases hgt : (forLoop mode getch (maxLength + 1)
      { pass := [], err := none, counter := 0, trace := trace }).counter > maxLength
  · have hgt0 : (forLoop mode0 getch0 (maxLength + 1)
        { pass := [], err := none, counter := 0, trace := trace }).counter > maxLength := by
      rw [← hc]; exact hgt
    rw [if_pos hgt, if_pos hgt0]
    exact herr _ _ _ h
  · have hgt0 : ¬ (forLoop mode0 getch0 (maxLength + 1)
        { pass := [], err := none, counter := 0, trace := trace }).counter > maxLength := by
      rw [← hc]; exact hgt
    rw [if_neg hgt, if_neg hgt0]
    exact h

/-- Under the mask mode an iteration leaves the loop, changes the length of the
buffer and extends the trace as `maskStep` tells from the kind of the read. -/
theorem loopBody_mask (r : Nat × Option GoError) (s : LoopState) :
    (loopBody .echoModeMask r s).2 = (maskStep (kind r) s.pass.length).1 ∧
    (loopBody .echoModeMask r s).1.pass.length = (maskStep (kind r) s.pass.length).2.1 ∧
    (loopBody .echoModeMask r s).1.trace =
      s.trace ++ (maskStep (kind r) s.pass.length).2.2 := by
  unfold loopBody kind
  rcases r with ⟨v, _ | e⟩
  · simp only
    split_ifs <;> simp_all [maskStep, bs, mask]
  · simp [maskStep]

theorem loopBody_mask_pair (r r0 : Nat × Option GoError) (s t : LoopState)
    (hk : kind r = kind r0) (h : sameShape s t) :
    (loopBody .echoModeMask r s).2 = (loopBody .echoModeMask r0 t).2 ∧
    sameShape (loopBody .echoModeMask r s).1 (loopBody .echoModeMask r0 t).1 := by
  obtain ⟨hc, hp, ht⟩ := h
  obtain ⟨a1, a2, a3⟩ := loopBody_mask r s
  obtain ⟨b1, b2, b3⟩ := loopBody_mask r0 t
  refine ⟨?_, ?_, ?_, ?_⟩
  · rw [a1, b1, hk, hp]
  · rw [loopBody_counter, loopBody_counter, hc]
  · rw [a2, b2, hk, hp]
  · rw [a3, b3, hk, hp, ht]

/-- Under the mask mode two byte sources whose reads agree in kind give the
same trace of the loop. -/
theorem readLoop_mask_kinds (getch getch0 : Nat → Nat × Option GoError)
    (trace : List Event)
    (hk : ∀ i, i ≤ maxLength → kind (getch i) = kind (getch0 i)) :
    (readLoop .echoModeMask getch trace).trace =
      (readLoop .echoModeMask getch0 trace).trace := by
  have h := readLoop_pair .echoModeMask .echoModeMask getch getch0 trace sameShape
    (fun s t h => h.1)
    (fun s t h hle => by
      have hc : t.counter = s.counter := h.1.symm
      rw [hc]
      exact loopBody_mask_pair _ _ s t (hk s.counter hle) h)
    (fun s t h => ⟨by simp only; rw [h.1], h.2.1, h.2.2⟩)
    (fun s t e h => ⟨h.1, h.2.1, h.2.2⟩)
    ⟨rfl, rfl, rfl⟩
  exact h.2.2

theorem silent_append (a b : List Event) : silent (a ++ b) = silent a ++ silent b := by
  simp [silent]

theorem reads_silent (trace : List Event) : reads (silent trace) = reads trace := by
  unfold reads silent
  exact List.count_filter rfl

theorem loopBody_modes (mode mode0 : echoMode) (r : Nat × Option GoError) (s t : LoopState)
    (h : sameSecret s t) :
    (loopBody mode r s).2 = (loopBody mode0 r t).2 ∧
    sameSecret (loopBody mode r s).1 (loopBody mode0 r t).1 := by
  obtain ⟨hc, hp, he, ht⟩ := h
  unfold loopBody sameSecret
  rcases r with ⟨v, _ | e⟩
  · simp only [hp]
    split_ifs <;> simp_all [silent_append, silent]
  · simp_all [silent_append, silent]

/-- The echo mode changes neither buffer, error nor the trace apart from the
writes. -/
theorem readLoop_modes (mode mode0 : echoMode) (getch : Nat → Nat × Option GoError)
    (trace : List Event) :
    sameSecret (readLoop mode getch trace) (readLoop mode0 getch trace) := by
  apply readLoop_pair mode mode0 getch getch trace sameSecret
  · exact fun s t h => h.1
  · intro s t h hle
    have hc : t.counter = s.counter := h.1.symm
    rw [hc]
    exact loopBody_modes mode mode0 _ s t h
  · exact fun s t h => ⟨by simp only; rw [h.1], h.2.1, h.2.2.1, h.2.2.2⟩
  · exact fun s t e h => ⟨h.1, h.2.1, rfl, h.2.2.2⟩
  · exact ⟨rfl, rfl, rfl, rfl⟩

/-- The three ways `getPasswd` goes depend on the console only, not on the
echo mode or the byte source. -/
theorem getPasswd_by_console (os : Console) :
    (∃ e, ∀ (mode : echoMode) (getch : Nat → Nat × Option GoError),
      getPasswd mode os getch = { pass := [], err := some e, trace := [Event.makeRaw] }) ∨
    (∃ oldState, ∀ (mode : echoMode) (getch : Nat → Nat × Option GoError),
      getPasswd mode os getch =
        { pass := (readLoop mode getch [Event.makeRaw]).pass,
          err := (readLoop mode getch [Event.makeRaw]).err,
          trace := (readLoop mode getch [Event.makeRaw]).trace ++
            [Event.restore oldState, Event.write [10]] }) ∨
    (∀ (mode : echoMode) (getch : Nat → Nat × Option GoError),
      getPasswd mode os getch =
        { pass := (readLoop mode getch []).pass,
          err := (readLoop mode getch []).err,
          trace := (readLoop mode getch []).trace }) := by
  unfold getPasswd
  cases hterm : isTerminal os
  · right; right
    intro mode getch
    simp
  · rcases hraw : (makeRaw os).1 with e | oldState
    · left
      exact ⟨e, fun _ _ => by simp⟩
    · right; left
      exact ⟨oldState, fun _ _ => by simp⟩

/-- Buffer, error, number of reads and the trace apart from the writes are the
same under any two echo modes. -/
theorem getPasswd_modes (mode mode0 : echoMode) (os : Console)
    (getch : Nat → Nat × Option GoError) :
    (getPasswd mode os getch).pass = (getPasswd mode0 os getch).pass ∧
    (getPasswd mode os getch).err = (getPasswd mode0 os getch).err ∧
    reads (getPasswd mode os getch).trace = reads (getPasswd mode0 os getch).trace ∧
    silent (getPasswd mode os getch).trace = silent (getPasswd mode0 os getch).trace := by
  have key : ∀ trace tail,
      (readLoop mode getch trace).pass = (readLoop mode0 getch trace).pass ∧
      (readLoop mode getch trace).err = (readLoop mode0 getch trace).err ∧
      reads ((readLoop mode getch trace).trace ++ tail) =
        reads ((readLoop mode0 getch trace).trace ++ tail) ∧
      silent ((readLoop mode getch trace).trace ++ tail) =
        silent ((readLoop mode0 getch trace).trace ++ tail) := by
    intro trace tail
    obtain ⟨_, hp, he, ht⟩ := readLoop_modes mode mode0 getch trace
    refine ⟨hp, he, ?_, ?_⟩
    · rw [← reads_silent, ← reads_silent ((readLoop mode0 getch trace).trace ++ tail),
        silent_append, silent_append, ht]
    · rw [silent_append, silent_append, ht]
  rcases getPasswd_by_console os with ⟨e, h⟩ | ⟨oldState, h⟩ | h
  · rw [h mode getch, h mode0 getch]
    exact ⟨rfl, rfl, rfl, rfl⟩
  · rw [h mode getch, h mode0 getch]
    exact key _ _
  · rw [h mode getch, h mode0 getch]
    have := key [] []
    simp only [List.append_nil] at this
    exact this

/-! ## The claims on echo -/

/-- C11: under the mask mode an iteration that appends a byte writes exactly
the one glyph `*` (42), whatever the byte; and two byte sources whose reads
agree position by position in kind (read error, backspace, terminator,
interrupt, zero, ordinary byte) give the same trace, so the same bytes on the
display, whatever the values of the ordinary bytes. -/
theorem GetPasswdMasked_uniform (os : Console) (getch getch0 : Nat → Nat × Option GoError)
    (hk : ∀ i, i ≤ maxLength → kind (getch i) = kind (getch0 i)) :
    display (GetPasswdMasked os getch).trace = display (GetPasswdMasked os getch0).trace ∧
    (GetPasswdMasked os getch).trace = (GetPasswdMasked os getch0).trace ∧
    (∀ (s : LoopState) (v : Nat), kind (v, none) = ReadKind.ordinary →
      (loopBody .echoModeMask (v, none) s).1.pass = s.pass ++ [v] ∧
      display (loopBody .echoModeMask (v, none) s).1.trace = display s.trace ++ [42]) := by
  have htrace : (GetPasswdMasked os getch).trace = (GetPasswdMasked os getch0).trace := by
    unfold GetPasswdMasked
    rcases getPasswd_shape .echoModeMask os with ⟨e, h⟩ | ⟨oldState, h⟩ | h
    · rw [h getch, h getch0]
    · rw [h getch, h getch0]
      simp only [readLoop_mask_kinds getch getch0 _ hk]
    · rw [h getch, h getch0]
      exact readLoop_mask_kinds getch getch0 _ hk
  refine ⟨by rw [htrace], htrace, ?_⟩
  intro s v hv
  unfold kind at hv
  simp only at hv
  unfold loopBody
  simp only
  split_ifs at hv ⊢ <;> simp_all [display_append, display, mask]

/-- C11, at concrete inputs: the bytes 97, 127, 98, 0, 13 and the bytes
120, 8, 121, 0, 10 agree in kind and give the same display under the mask
mode. -/
theorem GetPasswdMasked_uniform_witness :
    display (GetPasswdMasked console (feed [97, 127, 98, 0, 13])).trace =
      display (GetPasswdMasked console (feed [120, 8, 121, 0, 10])).trace :=
  (GetPasswdMasked_uniform console (feed [97, 127, 98, 0, 13]) (feed [120, 8, 121, 0, 10])
    (by
      intro i _
      unfold feed
      rcases i with _ | _ | _ | _ | _ | i <;> simp [kind])).1

/-- C12, at the failing input: under the echo mode the byte 200 is kept as it
is in the buffer but echoed as the two bytes 195, 136, the UTF-8 encoding that
`string(v)` gives, not as the single byte 200; on the bytes 97, 98, 127, 99, 13
of the specification the buffer is 97, 99 and the display 97, 98, the erase
sequence, 99.  In general an iteration that appends the byte `v` echoes the
single byte `v` when `v` is below 128 and two bytes otherwise. -/
theorem GetPasswdEchoed_high_byte :
    (GetPasswdEchoed pipe (feed [200, 13])).pass = [200] ∧
    display (GetPasswdEchoed pipe (feed [200, 13])).trace = [195, 136] ∧
    display (GetPasswdEchoed pipe (feed [200, 13])).trace ≠ [200] ∧
    (GetPasswdEchoed pipe (feed [97, 98, 127, 99, 13])).pass = [97, 99] ∧
    display (GetPasswdEchoed pipe (feed [97, 98, 127, 99, 13])).trace =
      [97, 98, 8, 32, 8, 99] ∧
    (∀ (s : LoopState) (v : Nat), kind (v, none) = ReadKind.ordinary →
      (loopBody .echoModeEcho (v, none) s).1.pass = s.pass ++ [v] ∧
      display (loopBody .echoModeEcho (v, none) s).1.trace =
        display s.trace ++ (if v < 128 then [v] else [192 + v / 64, 128 + v % 64])) := by
  refine ⟨by decide, by decide, by decide, by decide, by decide, ?_⟩
  intro s v hv
  unfold kind at hv
  simp only at hv
  unfold loopBody
  simp only
  split_ifs at hv ⊢ <;> simp_all [display_append, display, byteString]

/-- C20: for every console and every byte source, `GetPasswdMasked` and
`GetPasswdEchoed` return the same buffer and the same error as `GetPasswd`,
make the same number of reads, and leave the same trace apart from the writes
to the display. -/
theorem GetPasswd_policy_independent (os : Console) (getch : Nat → Nat × Option GoError) :
    ((GetPasswdMasked os getch).pass = (GetPasswd os getch).pass ∧
      (GetPasswdMasked os getch).err = (GetPasswd os getch).err ∧
      reads (GetPasswdMasked os getch).trace = reads (GetPasswd os getch).trace ∧
      silent (GetPasswdMasked os getch).trace = silent (GetPasswd os getch).trace) ∧
    ((GetPasswdEchoed os getch).pass = (GetPasswd os getch).pass ∧
      (GetPasswdEchoed os getch).err = (GetPasswd os getch).err ∧
      reads (GetPasswdEchoed os getch).trace = reads (GetPasswd os getch).trace ∧
      silent (GetPasswdEchoed os getch).trace = silent (GetPasswd os getch).trace) :=
  ⟨getPasswd_modes .echoModeMask .echoModeNone os getch,
    getPasswd_modes .echoModeEcho .echoModeNone os getch⟩

end Gopass
